import Mathlib

/-!
# Verification of the SWMM-JS conveyance routing core (`src/routing.js`)

Shallow embedding of the routing scheduler, inflow aggregation, steady-state
detection, event scheduling and loss/outflow reconciliation found in
`src/routing.js` of the EPA-SWMMJavascript repository.

Modelling conventions:
* JavaScript numbers are modelled as exact rationals (`ℚ`); division by zero
  yields `0` (Lean's convention) where JavaScript would yield `NaN`/`Infinity`;
  no claim in this development exercises such a degenerate configuration.
* External collaborators (hydraulic solver, mass-balance ledger internals,
  time-series lookups, …) live outside `src/routing.js`; they are modelled as
  an oracle record `Ext` of arbitrary functions, plus a trace of the calls the
  core makes into the ledger / solvers.
* A JavaScript runtime fault (reading a property of `undefined`, or evaluating
  an undeclared identifier such as `inObj`) is modelled as `Option.none`
  propagating out of the faulting routine.
-/

namespace SwmmRouting

/-- A routing event: half-open time window `[start, eend)` (field `end` in the
source; renamed because `end` is a Lean keyword). Times are dates (`ℚ`). -/
structure TEvent where
  start : ℚ
  eend  : ℚ
deriving DecidableEq

/-- Node types used by `routing.js` (`Node[j].type`). -/
inductive NodeType
  | junction | outfall | storage | divider
deriving DecidableEq

/-- Link types used by `routing.js` (`Link[i].type`); only `CONDUIT` matters. -/
inductive LinkType
  | conduit | other
deriving DecidableEq

/-- External-inflow record kinds (`FLOW_INFLOW`, `CONCEN_INFLOW`, `MASS_INFLOW`). -/
inductive InflowKind
  | flow | concen | mass
deriving DecidableEq

/-- Inflow categories passed to `massbal_addInflowFlow` / `massbal_addInflowQual`. -/
inductive InflowCat
  | external | dryWeather | wetWeather | groundwater | rdii
deriving DecidableEq

/-- One record of a node's `extInflow` linked list (`TExtInflow`): its kind and
its pollutant index (`param`). The looked-up value (`inflow_getExtInflow`) is
supplied by the oracle. -/
structure ExtInflowRec where
  kind  : InflowKind
  param : Nat
deriving DecidableEq

/-- One record of a node's `dwfInflow` linked list (`TDwfInflow`): `param < 0`
denotes the flow-carrying record, `param ≥ 0` a pollutant record. -/
structure DwfRec where
  param : Int
deriving DecidableEq

/-- The fields of `Node[j]` read or written by `routing.js`. -/
structure RNode where
  ntype        : NodeType
  oldLatFlow   : ℚ
  newLatFlow   : ℚ
  oldNetInflow : ℚ
  oldFlowInflow : ℚ
  inflow       : ℚ
  degree       : Nat
  losses       : ℚ
  subIndex     : Nat
  newQual      : List ℚ
  oldQual      : List ℚ
  extInflow    : List ExtInflowRec
  dwfInflow    : List DwfRec
deriving DecidableEq

/-- The fields of `Link[i]` read or written by `routing.js`. -/
structure RLink where
  ltype         : LinkType
  setting       : ℚ
  targetSetting : ℚ
  timeLastSet   : ℚ
  subIndex      : Nat
  newQual       : List ℚ
  oldQual       : List ℚ
deriving DecidableEq

/-- Subcatchment groundwater record (`TGroundwater`): receiving node and the
two bracketing flows. -/
structure GwRec where
  node    : Int
  oldFlow : ℚ
  newFlow : ℚ
deriving DecidableEq

/-- The fields of `Subcatch[i]` read by `routing.js`. -/
structure SubcatchRec where
  outNode     : Int
  area        : ℚ
  lidArea     : ℚ
  groundwater : Option GwRec
deriving DecidableEq

/-- The fields of `Storage[k]` read by `removeStorageLosses`. -/
structure StorageRec where
  evapLoss  : ℚ
  exfilLoss : ℚ
deriving DecidableEq

/-- The fields of `Conduit[k]` read by `removeConduitLosses`. -/
structure ConduitRec where
  barrels      : ℚ
  evapLossRate : ℚ
  seepLossRate : ℚ
deriving DecidableEq

/-- The fields of `Outfall[k]` read/written by `removeOutflows`. -/
structure OutfallRec where
  routeTo : Int
  vRouted : ℚ
  wRouted : List ℚ
deriving DecidableEq

/-- Pollutant properties read by the aggregation functions
(`Pollut[p].dwfConcen`, `.gwConcen`, `.rdiiConcen`). -/
structure PollutRec where
  dwfConcen  : ℚ
  gwConcen   : ℚ
  rdiiConcen : ℚ
deriving DecidableEq

/-- Calls the routing core makes into external side-effecting collaborators:
mass-balance ledger entries plus solver/bookkeeping invocations.  The trace is
appended to in program order. -/
inductive TraceEv
  | inflowFlow (cat : InflowCat) (q : ℚ)
  | inflowQual (cat : InflowCat) (p : Nat) (w : ℚ)
  | outflowFlow (q : ℚ) (flooded : Option Bool)
  | outflowQual (p : Nat) (w : ℚ) (flooded : Option Bool)
  | nodeLosses (evapRate : ℚ) (seepRate : ℚ)
  | linkLosses (evapTot : ℚ) (seepTot : ℚ)
  | updateRoutingTotals (halfStep : ℚ)
  | initTimeStepTotals
  | infilSetFactor
  | ifaceOpen
  | ifaceClose
  | flowroutInitCall
  | qualroutInitCall
  | flowroutCall (step : ℚ)
  | qualroutCall (step : ℚ)
  | flowroutCloseCall
  | treatmntCloseCall
  | statsCall (step : ℚ) (endDate : ℚ) (stepCount : Nat) (steady : Bool)
deriving DecidableEq

/-- Global option/tolerance variables of the program that `routing.js` reads
(`FLOW_TOL`, `TINY`, `LatFlowTol`, `SysFlowTol`, `RuleStep`, flags …). -/
structure Gbl where
  flowTol       : ℚ
  tiny          : ℚ
  latFlowTol    : ℚ
  sysFlowTol    : ℚ
  ruleStep      : ℚ
  skipSteadyState : Bool
  ignoreQuality : Bool
  flowStatsFlag : Bool
  finflowsUseFile : Bool
  hotstartNoFile : Bool
deriving DecidableEq

/-- The mutable global state touched by `routing.js`: the object arrays, the
event list and cursors, the clocks, the error latch and the call trace. -/
structure RState where
  errorCode     : Bool
  nodes         : List RNode
  links         : List RLink
  subcatch      : List SubcatchRec
  storage       : List StorageRec
  conduit       : List ConduitRec
  outfall       : List OutfallRec
  pollut        : List PollutRec
  swmmEvent     : List TEvent
  numEvents     : Nat
  nextEvent     : Nat
  betweenEvents : Bool
  sortedLinks   : List Nat
  newRoutingTime : ℚ
  oldRoutingTime : ℚ
  newRuleTime   : ℚ
  newRunoffTime : ℚ
  oldRunoffTime : ℚ
  reportTime    : ℚ
  trace         : List TraceEv
deriving DecidableEq

/-- Oracle bundle for every external function `routing.js` calls whose result
feeds back into the core's own logic. -/
structure Ext where
  getDateTime     : ℚ → ℚ
  extInflowVal    : ExtInflowRec → ℚ → ℚ
  linkTarget      : Nat → RLink → ℚ
  controls        : ℚ → List RLink → List RLink
  stepFlowError   : ℚ
  nodeLossesFn    : Nat → ℚ → ℚ
  subcatchWtdOutflow : Nat → ℚ → ℚ
  wtdWashoff      : Nat → Nat → ℚ → ℚ
  lidDrainNode    : Nat → Nat
  lidDrainFlow    : Nat → ℚ → ℚ
  numRdiiFlows    : ℚ → Nat
  numIfaceNodes   : ℚ → Nat
  ifaceNode       : Nat → Int
  ifaceFlow       : Nat → ℚ
  ifaceQual       : Nat → Nat → ℚ
  sysOutflow      : Nat → ℚ
  flowroutStep    : ℚ → ℚ
  flowroutExec    : ℚ → List RNode → List RLink → List RNode × List RLink × Nat
  qualroutExec    : ℚ → List RNode → List RLink → List RNode × List RLink
  nodeSetOldHyd   : RNode → RNode
  linkSetOldHyd   : RLink → RLink
  nodeInitInflow  : ℚ → RNode → RNode
  treatmntOpen    : Bool
  toposortOrder   : List Nat
  toposortOk      : Bool

/-- Update the `i`-th element of a list in place, identity when out of range
(models `a[i] = f(a[i])` where the index is known to be in range). -/
def updN {α : Type} : List α → Nat → (α → α) → List α
  | [], _, _ => []
  | a :: as, 0, f => f a :: as
  | a :: as, n + 1, f => a :: updN as n f

/-- Update the `i`-th element of a list, `none` when the index is out of range
(models `a[i].field = …`, which throws in JavaScript when `a[i]` is
`undefined`). -/
def modN? {α : Type} : List α → Nat → (α → α) → Option (List α)
  | [], _, _ => none
  | a :: as, 0, f => some (f a :: as)
  | a :: as, n + 1, f => (modN? as n f).map (a :: ·)

/-- Append one external call to the trace. -/
def pushT (s : RState) (e : TraceEv) : RState := { s with trace := s.trace ++ [e] }

/-! ## Event Scheduler: `sortEvents` (routing.js lines 858-888)

The source sorts `swmm_Event[0 .. NumEvents-1]` with a double-loop exchange
sort on `start`, then runs one left-to-right pass clipping each event's `end`
down to its successor's `start` when they overlap.  `NumEvents` equals the
length of the event list in any loaded project. -/

/-- One outer iteration of the exchange sort: starting with `a[i] = x` and the
tail `a[i+1..]`, compare/swap `a[i]` with each later slot in turn; returns the
final `a[i]` (the running minimum by `start`) and the final tail. -/
def exchPass (x : TEvent) : List TEvent → TEvent × List TEvent
  | [] => (x, [])
  | y :: ys =>
    if x.start > y.start then ((exchPass y ys).1, x :: (exchPass y ys).2)
    else ((exchPass x ys).1, y :: (exchPass x ys).2)

/-- The full exchange sort of routing.js lines 870-881, structurally recursive
on a fuel that is always instantiated with the list length (an exchange pass
preserves the tail's length, so the fuel never runs out). -/
def exchSortAux : Nat → List TEvent → List TEvent
  | n + 1, x :: xs => (exchPass x xs).1 :: exchSortAux n (exchPass x xs).2
  | _, l => l

/-- The exchange sort of routing.js lines 870-881 (`sortEvents`, first half). -/
def exchSort (l : List TEvent) : List TEvent := exchSortAux l.length l

/-- The overlap-repair pass of routing.js lines 884-887: clip each event's
`end` down to its successor's `start` when it exceeds it. -/
def clipOverlaps : List TEvent → List TEvent
  | a :: b :: rest =>
    { a with eend := if a.eend > b.start then b.start else a.eend } :: clipOverlaps (b :: rest)
  | l => l

/-- `sortEvents` (routing.js lines 858-888): exchange sort by `start` then the
left-to-right overlap repair pass. -/
def sortEvents (l : List TEvent) : List TEvent :=
  clipOverlaps (exchSort l)

/-! ## Inflow Aggregator (routing.js lines 346-698) -/

/-- The clamped interpolation fraction shared by the wet-weather, groundwater
and LID inflow routines (routing.js lines 517-519 etc.). -/
def interpFrac (routingTime oldRunoff newRunoff : ℚ) : ℚ :=
  let f := (routingTime - oldRunoff) / (newRunoff - oldRunoff)
  if f < 0 then 0 else if f > 1 then 1 else f

/-- Add `ws p` to `qual[p]` for each `p < npoll` (the per-pollutant update
loops of the aggregation functions). -/
def addQuals (ws : Nat → ℚ) (npoll : Nat) (qual : List ℚ) : List ℚ :=
  (List.range npoll).foldl (fun ql p => updN ql p (· + ws p)) qual

/-- The pollutant-mass loop of `addExternalInflows` (routing.js lines 388-400):
for every non-flow record, look up its value, multiply by the effective flow
`q` when concentration-based, add to `newQual[param]` and report to the
ledger. -/
def extQualLoop (ext : Ext) (date q : ℚ) : List ExtInflowRec → List ℚ → List ℚ × List TraceEv
  | [], qual => (qual, [])
  | r :: rs, qual =>
    if r.kind ≠ InflowKind.flow then
      let w0 := ext.extInflowVal r date
      let w := if r.kind = InflowKind.concen then w0 * q else w0
      let rest := extQualLoop ext date q rs (updN qual r.param (· + w))
      (rest.1, TraceEv.inflowQual .external r.param w :: rest.2)
    else extQualLoop ext date q rs qual

/-- The flow-record search loop of `addExternalInflows` (routing.js lines
365-374): the value of the first `FLOW_INFLOW` record, `0` when none exists. -/
def extFlowLookup (ext : Ext) (date : ℚ) (recs : List ExtInflowRec) : ℚ :=
  match recs.find? (fun r => r.kind == InflowKind.flow) with
  | some r => ext.extInflowVal r date
  | none => 0

/-- `if (Math.abs(q) < FLOW_TOL) q = 0.0` (routing.js line 375 and friends). -/
def tolFilter (tol q : ℚ) : ℚ := if |q| < tol then 0 else q

/-- The per-node body of `addExternalInflows` (routing.js lines 359-401):
find the flow record's value `q`, zero it below `FLOW_TOL`, add it to
`newLatFlow` and the ledger, then (only after that) add the outfall
reverse-flow correction `q - oldNetInflow` to the local `q` used by the
pollutant loop. -/
def extNodeStep (ext : Ext) (g : Gbl) (date : ℚ) (n : RNode) : RNode × List TraceEv :=
  if n.extInflow.isEmpty then (n, [])
  else
    let q1 := tolFilter g.flowTol (extFlowLookup ext date n.extInflow)
    let q2 := if n.ntype = NodeType.outfall ∧ n.oldNetInflow < 0 then q1 - n.oldNetInflow else q1
    let ql := extQualLoop ext date q2 n.extInflow n.newQual
    ({ n with newLatFlow := n.newLatFlow + q1, newQual := ql.1 },
     TraceEv.inflowFlow .external q1 :: ql.2)

/-- Node-list recursion of `addExternalInflows`. -/
def addExtAux (ext : Ext) (g : Gbl) (date : ℚ) : List RNode → List RNode × List TraceEv
  | [] => ([], [])
  | n :: ns =>
    let r := extNodeStep ext g date n
    let rest := addExtAux ext g date ns
    (r.1 :: rest.1, r.2 ++ rest.2)

/-- `addExternalInflows` (routing.js lines 346-402). -/
def addExternalInflows (ext : Ext) (g : Gbl) (date : ℚ) (s : RState) : RState :=
  let r := addExtAux ext g date s.nodes
  { s with nodes := r.1, trace := s.trace ++ r.2 }

/-- The flow-record search of `addDryWeatherInflows` (routing.js lines
436-451).  When a record with `param < 0` is found, the source evaluates the
undeclared identifier `inObj` (`inflow_getDwfInflow(inObj, …)`, line 443),
which throws a `ReferenceError`; modelled as `none`.  When no flow record
exists the loop leaves `q = 0`. -/
def dwfFlowLookup : List DwfRec → Option ℚ
  | [] => some 0
  | r :: rs => if r.param < 0 then none else dwfFlowLookup rs

/-- The explicit pollutant-record loop of `addDryWeatherInflows` (routing.js
lines 473-498): every record with `param ≥ 0` evaluates the undeclared
identifier `inObj` (line 481), throwing; modelled as `none`. -/
def dwfQualLoop : List DwfRec → Option Unit
  | [] => some ()
  | r :: rs => if r.param ≥ 0 then none else dwfQualLoop rs

/-- The default-concentration loop of `addDryWeatherInflows` (routing.js lines
462-470), at pollutant offset `p`. -/
def dwfDefaultQualAux (q : ℚ) : List PollutRec → Nat → List ℚ → List ℚ × List TraceEv
  | [], _, qual => (qual, [])
  | pr :: prs, p, qual =>
    if pr.dwfConcen > 0 then
      let w := q * pr.dwfConcen
      let rest := dwfDefaultQualAux q prs (p + 1) (updN qual p (· + w))
      (rest.1, TraceEv.inflowQual .dryWeather p w :: rest.2)
    else dwfDefaultQualAux q prs (p + 1) qual

/-- The per-node body of `addDryWeatherInflows` (routing.js lines 430-499).
The month/day-of-week/hour arguments extracted from the current date are never
successfully consumed because both lookup loops fault on `inObj`. -/
def dwfNodeStep (g : Gbl) (pollut : List PollutRec) (n : RNode) :
    Option (RNode × List TraceEv) :=
  if n.dwfInflow.isEmpty then some (n, [])
  else
    match dwfFlowLookup n.dwfInflow with
    | none => none
    | some q0 =>
      let q1 := if |q0| < g.flowTol then 0 else q0
      let n' := { n with newLatFlow := n.newLatFlow + q1 }
      if q1 ≤ 0 then some (n', [TraceEv.inflowFlow .dryWeather q1])
      else
        let d := dwfDefaultQualAux q1 pollut 0 n'.newQual
        match dwfQualLoop n.dwfInflow with
        | none => none
        | some _ =>
          some ({ n' with newQual := d.1 }, TraceEv.inflowFlow .dryWeather q1 :: d.2)

/-- Node-list recursion of `addDryWeatherInflows`. -/
def addDwfAux (g : Gbl) (pollut : List PollutRec) : List RNode → Option (List RNode × List TraceEv)
  | [] => some ([], [])
  | n :: ns => do
    let r ← dwfNodeStep g pollut n
    let rest ← addDwfAux g pollut ns
    some (r.1 :: rest.1, r.2 ++ rest.2)

/-- `addDryWeatherInflows` (routing.js lines 406-500). -/
def addDryWeatherInflows (g : Gbl) (s : RState) : Option RState :=
  (addDwfAux g s.pollut s.nodes).map fun r =>
    { s with nodes := r.1, trace := s.trace ++ r.2 }

/-- Subcatchment recursion of `addWetWeatherInflows` (routing.js lines
523-541): for each subcatchment with a non-negative outlet node, add the
interpolated runoff flow and washoff loads to that node and the ledger.
`Node[j]` with an out-of-range `j` throws in JavaScript, hence `modN?`. -/
def addWetAux (ext : Ext) (f : ℚ) (npoll : Nat) :
    List (Nat × SubcatchRec) → List RNode → Option (List RNode × List TraceEv)
  | [], nodes => some (nodes, [])
  | (i, sc) :: rest, nodes =>
    if sc.outNode ≥ 0 then
      let q := ext.subcatchWtdOutflow i f
      match modN? nodes sc.outNode.toNat (fun n =>
          { n with newLatFlow := n.newLatFlow + q,
                   newQual := addQuals (fun p => ext.wtdWashoff i p f) npoll n.newQual }) with
      | none => none
      | some nodes' => do
        let r ← addWetAux ext f npoll rest nodes'
        some (r.1, (TraceEv.inflowFlow .wetWeather q ::
          (List.range npoll).map (fun p => TraceEv.inflowQual .wetWeather p (ext.wtdWashoff i p f)))
          ++ r.2)
    else addWetAux ext f npoll rest nodes

/-- `addWetWeatherInflows` (routing.js lines 504-542). -/
def addWetWeatherInflows (ext : Ext) (routingTime : ℚ) (s : RState) : Option RState :=
  if s.subcatch.isEmpty then some s
  else
    let f := interpFrac routingTime s.oldRunoffTime s.newRunoffTime
    (addWetAux ext f s.pollut.length s.subcatch.enum s.nodes).map fun r =>
      { s with nodes := r.1, trace := s.trace ++ r.2 }

/-- Subcatchment recursion of `addGroundwaterInflows` (routing.js lines
566-595). -/
def addGwAux (g : Gbl) (f : ℚ) (pollut : List PollutRec) :
    List SubcatchRec → List RNode → Option (List RNode × List TraceEv)
  | [], nodes => some (nodes, [])
  | sc :: rest, nodes =>
    match sc.groundwater with
    | none => addGwAux g f pollut rest nodes
    | some gw =>
      if gw.node ≥ 0 then
        let q := ((1 - f) * gw.oldFlow + f * gw.newFlow) * sc.area
        if |q| < g.flowTol then addGwAux g f pollut rest nodes
        else
          match modN? nodes gw.node.toNat (fun n =>
              { n with newLatFlow := n.newLatFlow + q,
                       newQual := if q > 0 then
                         addQuals (fun p => q * ((pollut.getD p ⟨0, 0, 0⟩).gwConcen)) pollut.length n.newQual
                       else n.newQual }) with
          | none => none
          | some nodes' => do
            let r ← addGwAux g f pollut rest nodes'
            some (r.1, (TraceEv.inflowFlow .groundwater q ::
              (if q > 0 then
                (List.range pollut.length).map
                  (fun p => TraceEv.inflowQual .groundwater p (q * (pollut.getD p ⟨0, 0, 0⟩).gwConcen))
               else [])) ++ r.2)
      else addGwAux g f pollut rest nodes

/-- `addGroundwaterInflows` (routing.js lines 546-596). -/
def addGroundwaterInflows (g : Gbl) (routingTime : ℚ) (s : RState) : Option RState :=
  if s.subcatch.isEmpty then some s
  else
    let f := interpFrac routingTime s.oldRunoffTime s.newRunoffTime
    (addGwAux g f s.pollut s.subcatch s.nodes).map fun r =>
      { s with nodes := r.1, trace := s.trace ++ r.2 }

/-- Modelled from the spec: `lid_addDrainInflow` (LID subsystem, not under
`src/`).  Per §4.2 every inflow mechanism, LID drains included, both adds its
flow to the receiving node's `newLatFlow` and reports the same quantity to the
ledger; the receiving node and drain flow for subcatchment `i` at fraction `f`
come from the oracle. -/
def lid_addDrainInflow (ext : Ext) (i : Nat) (f : ℚ) (nodes : List RNode) :
    Option (List RNode × List TraceEv) :=
  let q := ext.lidDrainFlow i f
  (modN? nodes (ext.lidDrainNode i) (fun n => { n with newLatFlow := n.newLatFlow + q })).map
    (fun nodes' => (nodes', [TraceEv.inflowFlow .wetWeather q]))

/-- Subcatchment recursion of `addLidDrainInflows` (routing.js lines 615-619). -/
def addLidAux (ext : Ext) (f : ℚ) :
    List (Nat × SubcatchRec) → List RNode → Option (List RNode × List TraceEv)
  | [], nodes => some (nodes, [])
  | (i, sc) :: rest, nodes =>
    if sc.area > 0 ∧ sc.lidArea > 0 then do
      let r ← lid_addDrainInflow ext i f nodes
      let r2 ← addLidAux ext f rest r.1
      some (r2.1, r.2 ++ r2.2)
    else addLidAux ext f rest nodes

/-- `addLidDrainInflows` (routing.js lines 600-620). -/
def addLidDrainInflows (ext : Ext) (routingTime : ℚ) (s : RState) : Option RState :=
  if s.subcatch.isEmpty then some s
  else
    let f := interpFrac routingTime s.oldRunoffTime s.newRunoffTime
    (addLidAux ext f s.subcatch.enum s.nodes).map fun r =>
      { s with nodes := r.1, trace := s.trace ++ r.2 }

/-- `addRdiiInflows` (routing.js lines 624-658).  The source calls
`rdii_getRdiiFlow(i, j, q)` expecting C-style output parameters, but
JavaScript passes `j` and `q` by value, so both remain `undefined`:
`j < 0` is false, `Math.abs(q) < FLOW_TOL` is false, and
`Node[undefined].newLatFlow` throws a TypeError on the first loop iteration.
Hence the function completes exactly when no node has RDII flow at the
current date. -/
def addRdiiInflows (ext : Ext) (date : ℚ) (s : RState) : Option RState :=
  if ext.numRdiiFlows date = 0 then some s else none

/-- Interface-node recursion of `addIfaceInflows` (routing.js lines 678-697). -/
def addIfaceAux (ext : Ext) (g : Gbl) (npoll : Nat) :
    List Nat → List RNode → Option (List RNode × List TraceEv)
  | [], nodes => some (nodes, [])
  | i :: rest, nodes =>
    let j := ext.ifaceNode i
    if j < 0 then addIfaceAux ext g npoll rest nodes
    else
      let q := ext.ifaceFlow i
      if |q| < g.flowTol then addIfaceAux ext g npoll rest nodes
      else
        match modN? nodes j.toNat (fun n =>
            { n with newLatFlow := n.newLatFlow + q,
                     newQual := if q > 0 then
                       addQuals (fun p => q * ext.ifaceQual i p) npoll n.newQual
                     else n.newQual }) with
        | none => none
        | some nodes' => do
          let r ← addIfaceAux ext g npoll rest nodes'
          some (r.1, (TraceEv.inflowFlow .external q ::
            (if q > 0 then
              (List.range npoll).map (fun p => TraceEv.inflowQual .external p (q * ext.ifaceQual i p))
             else [])) ++ r.2)

/-- `addIfaceInflows` (routing.js lines 662-698). -/
def addIfaceInflows (ext : Ext) (g : Gbl) (date : ℚ) (s : RState) : Option RState :=
  if !g.finflowsUseFile then some s
  else
    (addIfaceAux ext g s.pollut.length (List.range (ext.numIfaceNodes date)) s.nodes).map fun r =>
      { s with nodes := r.1, trace := s.trace ++ r.2 }

/-! ## Steady-State Detector: `inflowHasChanged` (routing.js lines 704-736) -/

/-- The relative-change measure of `inflowHasChanged` (routing.js lines
721-723 and 729-731). -/
def relDiff (g : Gbl) (qOld qNew : ℚ) : ℚ :=
  if |qOld| > g.tiny then qNew / qOld - 1
  else if |qNew| > g.tiny then 1 else 0

/-- Whether one node trips the steady-state detector: lateral-inflow test for
every node, plus the total-inflow test for outfall or degree-0 nodes
(routing.js lines 717-733). -/
def nodeTriggers (g : Gbl) (n : RNode) : Bool :=
  decide (|relDiff g n.oldLatFlow n.newLatFlow| > g.latFlowTol) ||
    ((decide (n.ntype = NodeType.outfall) || decide (n.degree = 0)) &&
      decide (|relDiff g n.oldFlowInflow n.inflow| > g.latFlowTol))

/-- `inflowHasChanged` (routing.js lines 704-736); `List.any` models the
early-`return true` loop. -/
def inflowHasChanged (g : Gbl) (nodes : List RNode) : Bool :=
  nodes.any (nodeTriggers g)

/-! ## Loss/Outflow Reconciler (routing.js lines 740-854) -/

/-- Storage-node loss accumulation of `removeStorageLosses` (routing.js lines
753-761); reading `Storage[subIndex]` out of range throws. -/
def storageSums (storage : List StorageRec) : List RNode → Option (ℚ × ℚ)
  | [] => some (0, 0)
  | n :: ns =>
    if n.ntype = NodeType.storage then
      match storage.get? n.subIndex with
      | none => none
      | some st => (storageSums storage ns).map (fun r => (st.evapLoss + r.1, st.exfilLoss + r.2))
    else storageSums storage ns

/-- `removeStorageLosses` (routing.js lines 740-765): total storage losses
divided by the step length, reported as one `massbal_addNodeLosses` call. -/
def removeStorageLosses (tStep : ℚ) (s : RState) : Option RState :=
  (storageSums s.storage s.nodes).map fun r =>
    pushT s (.nodeLosses (r.1 / tStep) (r.2 / tStep))

/-- Conduit loss accumulation of `removeConduitLosses` (routing.js lines
782-794). -/
def conduitSums (conduit : List ConduitRec) : List RLink → Option (ℚ × ℚ)
  | [] => some (0, 0)
  | l :: ls =>
    if l.ltype = LinkType.conduit then
      match conduit.get? l.subIndex with
      | none => none
      | some c => (conduitSums conduit ls).map
          (fun r => (c.evapLossRate * c.barrels + r.1, c.seepLossRate * c.barrels + r.2))
    else conduitSums conduit ls

/-- `removeConduitLosses` (routing.js lines 769-796). -/
def removeConduitLosses (s : RState) : Option RState :=
  (conduitSums s.conduit s.links).map fun r =>
    pushT s (.linkLosses r.1 r.2)

/-- The ledger events the `removeOutflows` body emits for node `i`
(routing.js lines 827-851): the system-outflow branch (positive quantity →
outflow + per-pollutant mass; otherwise its negation as external inflow) and
the negative-lateral-inflow pollutant branch.  The JavaScript `isFlooded`
argument is never written by `node_getSystemOutflow` (pass-by-value), so the
flag forwarded to the ledger is `undefined`, modelled `none`. -/
def outflowEvents (ext : Ext) (i : Nat) (n : RNode) (npoll : Nat) : List TraceEv :=
  let q := ext.sysOutflow i
  (if q > 0 then
     TraceEv.outflowFlow q none ::
       (List.range npoll).map (fun p => TraceEv.outflowQual p (q * n.newQual.getD p 0) none)
   else [TraceEv.inflowFlow .external (-q)]) ++
  (if n.newLatFlow < 0 then
     (List.range npoll).map
       (fun p => TraceEv.outflowQual p (-n.newLatFlow * n.newQual.getD p 0) (some false))
   else [])

/-- The outfall routed-volume accumulation of `removeOutflows` (routing.js
lines 815-825). -/
def outfallAccum (tStep : ℚ) (npoll : Nat) (n : RNode) (outfall : List OutfallRec) :
    Option (List OutfallRec) :=
  if n.ntype = NodeType.outfall ∧ n.inflow > 0 then
    match outfall.get? n.subIndex with
    | none => none
    | some ofl =>
      if ofl.routeTo ≥ 0 then
        let v := n.inflow * tStep
        modN? outfall n.subIndex (fun o =>
          { o with vRouted := o.vRouted + v,
                   wRouted := addQuals (fun p => n.newQual.getD p 0 * v) npoll o.wRouted })
      else some outfall
  else some outfall

/-- Node recursion of `removeOutflows`. -/
def removeOutAux (ext : Ext) (tStep : ℚ) (npoll : Nat) :
    List (Nat × RNode) → List OutfallRec → Option (List OutfallRec × List TraceEv)
  | [], outfall => some (outfall, [])
  | (i, n) :: rest, outfall => do
    let outfall' ← outfallAccum tStep npoll n outfall
    let r ← removeOutAux ext tStep npoll rest outfall'
    some (r.1, outflowEvents ext i n npoll ++ r.2)

/-- `removeOutflows` (routing.js lines 800-854). -/
def removeOutflows (ext : Ext) (tStep : ℚ) (s : RState) : Option RState :=
  (removeOutAux ext tStep s.pollut.length s.nodes.enum s.outfall).map fun r =>
    { s with outfall := r.1, trace := s.trace ++ r.2 }

/-! ## Routing Scheduler (routing.js lines 67-342) -/

/-- The tail of `routing_getRoutingStep` (routing.js lines 160-175): fall back
to the hydraulic solver's step size when no event-based candidate was set,
then clip the step so the clock lands on the next control-rule evaluation
instant when one falls inside it. -/
def finishStep (ext : Ext) (g : Gbl) (fixedStep : ℚ) (s : RState) (rs0 : ℚ) : ℚ :=
  let rs := if rs0 = 0 then ext.flowroutStep fixedStep else rs0
  if g.ruleStep > 0 then
    let nextRuleTime := s.newRuleTime + 1000 * g.ruleStep
    let nextRoutingTime := s.newRoutingTime + 1000 * rs
    if nextRoutingTime ≥ nextRuleTime then (nextRuleTime - s.newRoutingTime) / 1000
    else rs
  else rs

/-- `routing_getRoutingStep` (routing.js lines 129-176).  Between events the
source reads `swmm_Event[NextEvent].start` on every control path, so the
event lookup is hoisted; an out-of-range `NextEvent` is the `none` branch. -/
def routing_getRoutingStep (ext : Ext) (g : Gbl) (fixedStep : ℚ) (s : RState) : Option ℚ :=
  if s.links.length = 0 then some fixedStep
  else if s.numEvents > 0 ∧ s.betweenEvents then
    match s.swmmEvent.get? s.nextEvent with
    | none => none
    | some ev =>
      let nextTime := min s.newRunoffTime s.reportTime
      let date1 := ext.getDateTime s.newRoutingTime
      let date2 := ext.getDateTime nextTime
      if date2 > date1 ∧ date2 < ev.start then
        some (finishStep ext g fixedStep s ((nextTime - s.newRoutingTime) / 1000))
      else if ext.getDateTime (s.newRoutingTime + 1000 * fixedStep) < ev.start then
        some fixedStep
      else some (finishStep ext g fixedStep s 0)
  else some (finishStep ext g fixedStep s 0)

/-- The `link_setTargetSetting` loop (routing.js line 202); the per-link target
resolution is delegated to the link subsystem (oracle). -/
def setLinkTargets (ext : Ext) (links : List RLink) : List RLink :=
  links.enum.map (fun il => { il.2 with targetSetting := ext.linkTarget il.1 il.2 })

/-- The gated `controls_evaluate` call (routing.js lines 208-212); rule actions
may mutate link targets (oracle). -/
def evalControls (ext : Ext) (g : Gbl) (currentDate : ℚ) (s : RState) : RState :=
  if g.ruleStep = 0 ∨ |s.newRoutingTime - s.newRuleTime| < 1 then
    { s with links := ext.controls currentDate s.links }
  else s

/-- The setting-change loop (routing.js lines 215-227): apply every target
that differs from the actual setting (`link_setSetting`'s documented effect),
stamping `timeLastSet` on open/closed toggles, and count the actions. -/
def applyLinkSettings (currentDate : ℚ) : List RLink → List RLink × Nat
  | [] => ([], 0)
  | l :: ls =>
    let rest := applyLinkSettings currentDate ls
    if l.targetSetting ≠ l.setting then
      ({ l with timeLastSet := if l.targetSetting * l.setting = 0 then currentDate else l.timeLastSet,
                setting := l.targetSetting } :: rest.1, rest.2 + 1)
    else (l :: rest.1, rest.2)

/-- Clock advance and rule-time advance (routing.js lines 230-235). -/
def advanceClocks (g : Gbl) (step : ℚ) (s : RState) : RState :=
  let s := { s with oldRoutingTime := s.newRoutingTime,
                    newRoutingTime := s.newRoutingTime + 1000 * step }
  if |s.newRoutingTime - (s.newRuleTime + 1000 * g.ruleStep)| < 1 then
    { s with newRuleTime := s.newRuleTime + 1000 * g.ruleStep }
  else s

/-- Quality-state snapshot (routing.js lines 242-246; `node_setOldQualState`
and `link_setOldQualState`'s documented effect). -/
def rollQualState (s : RState) : RState :=
  if s.pollut.length > 0 then
    { s with nodes := s.nodes.map (fun n => { n with oldQual := n.newQual }),
             links := s.links.map (fun l => { l with oldQual := l.newQual }) }
  else s

/-- Lateral-inflow roll-over (routing.js lines 253-257). -/
def rollLatFlows (s : RState) : RState :=
  { s with nodes := s.nodes.map (fun n => { n with oldLatFlow := n.newLatFlow, newLatFlow := 0 }) }

/-- Event-window bookkeeping (routing.js lines 260-271).  The source reads
`swmm_Event[NextEvent]` without checking `NextEvent < NumEvents`; an
out-of-range cursor is the `none` branch. -/
def eventBookkeeping (currentDate : ℚ) (s : RState) : Option RState :=
  if s.numEvents > 0 then
    match s.swmmEvent.get? s.nextEvent with
    | none => none
    | some ev =>
      if currentDate > ev.eend then
        some { s with betweenEvents := true, nextEvent := s.nextEvent + 1 }
      else if currentDate ≥ ev.start ∧ s.betweenEvents = true then
        some { s with betweenEvents := false }
      else some s
  else some s

/-- Storage evap/seepage losses per node (routing.js lines 277-280; the
computation is delegated to `node_getLosses`). -/
def computeNodeLosses (ext : Ext) (step : ℚ) (s : RState) : RState :=
  { s with nodes := s.nodes.enum.map (fun jn => { jn.2 with losses := ext.nodeLossesFn jn.1 step }) }

/-- The aggregation phase of `routing_execute` (routing.js lines 283-289):
the seven inflow mechanisms in source order. -/
def aggregationPhase (ext : Ext) (g : Gbl) (currentDate : ℚ) (s : RState) : Option RState := do
  let s := addExternalInflows ext g currentDate s
  let s ← addDryWeatherInflows g s
  let s ← addWetWeatherInflows ext s.oldRoutingTime s
  let s ← addGroundwaterInflows g s.oldRoutingTime s
  let s ← addLidDrainInflows ext s.oldRoutingTime s
  let s ← addRdiiInflows ext currentDate s
  let s ← addIfaceInflows ext g currentDate s
  some s

/-- The steady-state test of `routing_execute` (routing.js lines 292-299),
evaluated on the post-aggregation state: steady unless this is the very first
step (`OldRoutingTime == 0`), a control action occurred, the sampled
flow-balance error exceeds `SysFlowTol`, or the inflows changed. -/
def steadyCond (ext : Ext) (g : Gbl) (actionCount : Nat) (s : RState) : Bool :=
  !(decide (s.oldRoutingTime = 0) || decide (actionCount > 0)
    || decide (|ext.stepFlowError| > g.sysFlowTol) || inflowHasChanged g s.nodes)

/-- The non-steady compute path (routing.js lines 302-317): snapshot hydraulic
state, initialize node inflows, and invoke the flow-routing solver when links
exist; returns the solver's iteration count (1 otherwise). -/
def routeFlowPhase (ext : Ext) (step : ℚ) (s : RState) : RState × Nat :=
  let s := { s with links := s.links.map ext.linkSetOldHyd,
                    nodes := s.nodes.map (fun n => ext.nodeInitInflow step (ext.nodeSetOldHyd n)) }
  if s.links.length > 0 then
    let r := ext.flowroutExec step s.nodes s.links
    ({ s with nodes := r.1, links := r.2.1, trace := s.trace ++ [TraceEv.flowroutCall step] }, r.2.2)
  else (s, 1)

/-- The quality-routing dispatch (routing.js lines 320-323). -/
def qualroutPhase (ext : Ext) (g : Gbl) (step : ℚ) (s : RState) : RState :=
  if s.pollut.length > 0 ∧ ¬g.ignoreQuality then
    let r := ext.qualroutExec step s.nodes s.links
    { s with nodes := r.1, links := r.2, trace := s.trace ++ [TraceEv.qualroutCall step] }
  else s

/-- The closing half-step continuity update and statistics report of
`routing_execute` (routing.js lines 332-341). -/
def executeFinish (ext : Ext) (g : Gbl) (step : ℚ) (stepCount : Nat) (inSteady : Bool)
    (s : RState) : RState :=
  let s := pushT s (.updateRoutingTotals (step / 2))
  if g.flowStatsFlag ∧ s.links.length > 0 then
    pushT s (.statsCall step (ext.getDateTime s.newRoutingTime) stepCount inSteady)
  else s

/-- The preamble of `routing_execute` (routing.js lines 198-257): first
half-step continuity update, target-setting resolution, rule evaluation,
setting changes (whose count is returned), clock advance, per-step ledger
reset, quality and lateral-inflow roll-over.  `currentDate` is the date of
the pre-advance clock (routing.js line 205). -/
def preEventState (ext : Ext) (g : Gbl) (step : ℚ) (s : RState) : RState × Nat :=
  let s := pushT s (.updateRoutingTotals (step / 2))
  let s := { s with links := setLinkTargets ext s.links }
  let currentDate := ext.getDateTime s.newRoutingTime
  let s := evalControls ext g currentDate s
  let r := applyLinkSettings currentDate s.links
  let s := { s with links := r.1 }
  let s := advanceClocks g step s
  let s := pushT s .initTimeStepTotals
  let s := rollQualState s
  let s := pushT s .infilSetFactor
  let s := rollLatFlows s
  (s, r.2)

/-- The portion of `routing_execute` from the event bookkeeping through the
inflow aggregation (routing.js lines 260-289), yielding the state on which
the steady-state test runs (`none` when between events or on a fault). -/
def preSteadyState (ext : Ext) (g : Gbl) (step : ℚ) (s : RState) : Option RState :=
  match eventBookkeeping (ext.getDateTime s.newRoutingTime) (preEventState ext g step s).1 with
  | none => none
  | some s₂ =>
    if s₂.betweenEvents = false then
      aggregationPhase ext g (ext.getDateTime s.newRoutingTime) (computeNodeLosses ext step s₂)
    else none

/-- The tail of the not-between-events path of `routing_execute` (routing.js
lines 292-341): steady-state test, flow/quality routing dispatch,
loss/outflow reconciliation, closing half-step and statistics. -/
def postSteadyPhases (ext : Ext) (g : Gbl) (step : ℚ) (actionCount : Nat)
    (sA : RState) : Option RState :=
  let inSteady := g.skipSteadyState && steadyCond ext g actionCount sA
  let r2 := if inSteady then (sA, 1) else routeFlowPhase ext step sA
  let s := qualroutPhase ext g step r2.1
  match removeStorageLosses step s with
  | none => none
  | some s =>
    match removeConduitLosses s with
    | none => none
    | some s => (removeOutflows ext step s).map (executeFinish ext g step r2.2 inSteady)

/-- `routing_execute` (routing.js lines 180-342), in source order: error-latch
check, the preamble (`preEventState`), event bookkeeping, then — when not
between events — losses, inflow aggregation (`preSteadyState`) and the
steady/routing/reconciliation tail (`postSteadyPhases`); between events the
step is treated as steady and skips directly to the closing half-step update
and statistics. -/
def routing_execute (ext : Ext) (g : Gbl) (step : ℚ) (s : RState) : Option RState :=
  if s.errorCode then some s
  else
    let pre := preEventState ext g step s
    match eventBookkeeping (ext.getDateTime s.newRoutingTime) pre.1 with
    | none => none
    | some s₂ =>
      if s₂.betweenEvents = false then
        match aggregationPhase ext g (ext.getDateTime s.newRoutingTime)
            (computeNodeLosses ext step s₂) with
        | none => none
        | some sA => postSteadyPhases ext g step pre.2 sA
      else some (executeFinish ext g step 1 true s₂)

/-- The tail of `routing_open` (routing.js lines 93-104): open interface
files, initialize the solvers, sort events when configured, and reset the
event cursor and rule clock. -/
def routing_openRest (g : Gbl) (s : RState) : RState :=
  let s := pushT s .ifaceOpen
  let s := pushT s .flowroutInitCall
  let s := if g.hotstartNoFile then pushT s .qualroutInitCall else s
  let s := if s.numEvents > 0 then { s with swmmEvent := sortEvents s.swmmEvent } else s
  { s with nextEvent := 0, betweenEvents := decide (s.numEvents > 0), newRuleTime := 0 }

/-- `routing_open` (routing.js lines 67-105).  Note the function does NOT
check the global error latch on entry: it proceeds (and mutates state)
regardless of `ErrorCode`.  The `SortedLinks` allocation cannot fail in
JavaScript (`new Array(n)` is always truthy); `toposort_sortLinks` may set the
error latch, which is re-checked only after the sort. -/
def routing_open (ext : Ext) (g : Gbl) (s : RState) : RState :=
  if !ext.treatmntOpen then s
  else
    let s := { s with sortedLinks := [] }
    if s.links.length > 0 then
      let s := { s with sortedLinks := ext.toposortOrder,
                        errorCode := s.errorCode || !ext.toposortOk }
      if s.errorCode then s else routing_openRest g s
    else routing_openRest g s

/-- `routing_close` (routing.js lines 109-123): close interface files, shut
down the solvers, free the sorted-link array.  It does not check the error
latch either. -/
def routing_close (s : RState) : RState :=
  let s := pushT s .ifaceClose
  let s := pushT s .flowroutCloseCall
  let s := pushT s .treatmntCloseCall
  { s with sortedLinks := [] }

/-! ## Derived observation functions used by the theorems -/

/-- Sum of all flows reported through `massbal_addInflowFlow` in a trace. -/
def inflowFlowSum : List TraceEv → ℚ
  | [] => 0
  | TraceEv.inflowFlow _ q :: rest => q + inflowFlowSum rest
  | _ :: rest => inflowFlowSum rest

/-- Total lateral inflow over a node list. -/
def latFlowSum (nodes : List RNode) : ℚ :=
  (nodes.map RNode.newLatFlow).sum

/-- Events that are `massbal_addOutflowFlow` calls. -/
def isOutFlowEv : TraceEv → Bool
  | TraceEv.outflowFlow _ _ => true
  | _ => false

/-- Events that are `massbal_addInflowFlow` calls. -/
def isInFlowEv : TraceEv → Bool
  | TraceEv.inflowFlow _ _ => true
  | _ => false

/-- Events that are `massbal_addOutflowQual` calls. -/
def isOutQualEv : TraceEv → Bool
  | TraceEv.outflowQual _ _ _ => true
  | _ => false

/-- Number of `flowrout_execute` invocations recorded in a trace. -/
def flowroutCount : List TraceEv → Nat
  | [] => 0
  | TraceEv.flowroutCall _ :: rest => flowroutCount rest + 1
  | _ :: rest => flowroutCount rest

/-- Two states agreeing on every field other than `nodes`, `outfall` and
`trace` (the only fields the inflow-aggregation functions write). -/
def SameCfg (s s' : RState) : Prop :=
  s'.errorCode = s.errorCode ∧ s'.links = s.links ∧ s'.subcatch = s.subcatch ∧
  s'.storage = s.storage ∧ s'.conduit = s.conduit ∧ s'.pollut = s.pollut ∧
  s'.swmmEvent = s.swmmEvent ∧ s'.numEvents = s.numEvents ∧
  s'.nextEvent = s.nextEvent ∧ s'.betweenEvents = s.betweenEvents ∧
  s'.sortedLinks = s.sortedLinks ∧ s'.newRoutingTime = s.newRoutingTime ∧
  s'.oldRoutingTime = s.oldRoutingTime ∧ s'.newRuleTime = s.newRuleTime ∧
  s'.newRunoffTime = s.newRunoffTime ∧ s'.oldRunoffTime = s.oldRunoffTime ∧
  s'.reportTime = s.reportTime

/-! ## Concrete sample configurations (used to instantiate the theorems) -/

/-- Sample global options: `FLOW_TOL = 10⁻⁵`, `TINY = 0`, tolerances `1/20`,
no rule step, steady-state skipping enabled. -/
def gEx : Gbl :=
  { flowTol := 1/100000, tiny := 0, latFlowTol := 1/20, sysFlowTol := 1/20,
    ruleStep := 0, skipSteadyState := true, ignoreQuality := false,
    flowStatsFlag := true, finflowsUseFile := false, hotstartNoFile := true }

/-- Sample oracle: identity date conversion, every lookup zero, hydraulic
solver returning the requested step and leaving the state unchanged. -/
def extEx : Ext :=
  { getDateTime := id, extInflowVal := fun _ _ => 0,
    linkTarget := fun _ l => l.targetSetting, controls := fun _ ls => ls,
    stepFlowError := 0, nodeLossesFn := fun _ _ => 0,
    subcatchWtdOutflow := fun _ _ => 0, wtdWashoff := fun _ _ _ => 0,
    lidDrainNode := fun _ => 0, lidDrainFlow := fun _ _ => 0,
    numRdiiFlows := fun _ => 0, numIfaceNodes := fun _ => 0,
    ifaceNode := fun _ => -1, ifaceFlow := fun _ => 0, ifaceQual := fun _ _ => 0,
    sysOutflow := fun _ => 0, flowroutStep := fun fs => fs,
    flowroutExec := fun _ ns ls => (ns, ls, 2),
    qualroutExec := fun _ ns ls => (ns, ls),
    nodeSetOldHyd := id, linkSetOldHyd := id, nodeInitInflow := fun _ n => n,
    treatmntOpen := true, toposortOrder := [], toposortOk := true }

/-- Sample node: a plain junction with no inflow records and all flows zero. -/
def nodeEx : RNode :=
  { ntype := .junction, oldLatFlow := 0, newLatFlow := 0, oldNetInflow := 0,
    oldFlowInflow := 0, inflow := 0, degree := 1, losses := 0, subIndex := 0,
    newQual := [], oldQual := [], extInflow := [], dwfInflow := [] }

/-- Sample link: an open non-conduit link. -/
def linkEx : RLink :=
  { ltype := .other, setting := 1, targetSetting := 1, timeLastSet := 0,
    subIndex := 0, newQual := [], oldQual := [] }

/-- Sample state: an entirely empty project at time zero. -/
def stateEx : RState :=
  { errorCode := false, nodes := [], links := [], subcatch := [], storage := [],
    conduit := [], outfall := [], pollut := [], swmmEvent := [], numEvents := 0,
    nextEvent := 0, betweenEvents := false, sortedLinks := [],
    newRoutingTime := 0, oldRoutingTime := 0, newRuleTime := 0,
    newRunoffTime := 0, oldRunoffTime := 0, reportTime := 0, trace := [] }

/-- Sample oracle whose system-outflow query returns `3` for every node. -/
def extPosOut : Ext := { extEx with sysOutflow := fun _ => 3 }

/-- Sample outfall node with previous-step net inflow `-3`, a zero-valued
direct external flow inflow and no pollutant records (the C1 scenario). -/
def nodeRevZero : RNode :=
  { nodeEx with ntype := .outfall, oldNetInflow := -3, extInflow := [⟨.flow, 0⟩] }

/-- Sample outfall node as above but carrying one concentration-based
pollutant record and one pollutant slot. -/
def nodeRevConcen : RNode :=
  { nodeEx with
      ntype := .outfall, oldNetInflow := -3, newQual := [0],
      extInflow := [⟨.flow, 0⟩, ⟨.concen, 0⟩] }

/-- Sample oracle valuing concentration records at `5` and all others `0`. -/
def extConcen : Ext :=
  { extEx with extInflowVal := fun r _ => if r.kind == InflowKind.concen then 5 else 0 }

/-- Sample state that is between events before an event `[100, 200)`, with one
link and the clock, runoff and report times all zero. -/
def sBetween : RState :=
  { stateEx with
      links := [linkEx], swmmEvent := [⟨100, 200⟩], numEvents := 1,
      nextEvent := 0, betweenEvents := true }

/-- Sample node carrying one pollutant concentration `4`. -/
def nodeOneQual : RNode := { nodeEx with newQual := [4] }

/-- Sample oracle whose external-inflow lookups all yield `2`. -/
def extFlow2 : Ext := { extEx with extInflowVal := fun _ _ => 2 }

/-- Sample state with a single node holding one direct external flow inflow. -/
def sOneInflow : RState :=
  { stateEx with nodes := [{ nodeEx with extInflow := [⟨.flow, 0⟩] }] }

/-- The state `sOneInflow` after one aggregation phase under `extFlow2`. -/
def sOneInflowPost : RState :=
  { stateEx with
      nodes := [{ nodeEx with extInflow := [⟨.flow, 0⟩], newLatFlow := 2 }],
      trace := [.inflowFlow .external 2] }

/-- Sample state whose clock has passed the end of the last (single) routing
event `[0, 10)`. -/
def sPastEvents : RState :=
  { stateEx with
      swmmEvent := [⟨0, 10⟩], numEvents := 1, nextEvent := 0, newRoutingTime := 20 }

/-- Sample node carrying a single external flow inflow and last step's
lateral inflow `2` (the steady-state scenario, second step). -/
def nodeSteady : RNode := { nodeEx with extInflow := [⟨.flow, 0⟩], newLatFlow := 2 }

/-- Sample state for the steady-state scenario: one node, constant external
inflow, clock at `40000` ms (not the first step). -/
def sSteady : RState := { stateEx with nodes := [nodeSteady], newRoutingTime := 40000 }

/-- `sSteady` after the `routing_execute` preamble (`preEventState`) of a
`30`-second step under `extFlow2`. -/
def sSteadyPre : RState :=
  { stateEx with
      nodes := [{ nodeEx with extInflow := [⟨.flow, 0⟩], oldLatFlow := 2, newLatFlow := 0 }],
      newRoutingTime := 70000, oldRoutingTime := 40000,
      trace := [.updateRoutingTotals 15, .initTimeStepTotals, .infilSetFactor] }

/-- `sSteady` after the preamble, bookkeeping, losses and aggregation of one
`routing_execute` step of `30` seconds under `extFlow2`. -/
def sSteadyAgg : RState :=
  { stateEx with
      nodes := [{ nodeEx with extInflow := [⟨.flow, 0⟩], oldLatFlow := 2, newLatFlow := 2 }],
      newRoutingTime := 70000, oldRoutingTime := 40000,
      trace := [.updateRoutingTotals 15, .initTimeStepTotals, .infilSetFactor,
        .inflowFlow .external 2] }

/-- `sSteady` after the full `routing_execute` step (treated as steady). -/
def sSteadyPost : RState :=
  { sSteadyAgg with
      trace := [.updateRoutingTotals 15, .initTimeStepTotals, .infilSetFactor,
        .inflowFlow .external 2, .nodeLosses 0 0, .linkLosses 0 0,
        .inflowFlow .external 0, .updateRoutingTotals 15] }

/-- The state transformation of the passed-event branch of the event
bookkeeping (routing.js lines 262-266). -/
def advanceEventCursor (t : RState) : RState :=
  { t with betweenEvents := true, nextEvent := t.nextEvent + 1 }

/-! # Helper theorems -/

theorem exchPass_len (x : TEvent) (l : List TEvent) :
    (exchPass x l).2.length = l.length := by
  induction l generalizing x with
  | nil => rfl
  | cons y ys ih =>
    simp only [exchPass]
    split <;> simp [ih]

/-- The element left in slot `i` after an exchange pass has minimal `start`
among the starting element and those visited. -/
theorem exchPass_min (x : TEvent) (l : List TEvent) :
    (exchPass x l).1.start ≤ x.start ∧
      ∀ y ∈ (exchPass x l).2, (exchPass x l).1.start ≤ y.start := by
  induction l generalizing x with
  | nil => exact ⟨le_refl _, by simp [exchPass]⟩
  | cons y ys ih =>
    simp only [exchPass]
    split
    · rename_i hxy
      have h := ih y
      refine ⟨h.1.trans (le_of_lt hxy), ?_⟩
      intro z hz
      simp only [List.mem_cons] at hz
      rcases hz with rfl | hz
      · exact h.1.trans (le_of_lt hxy)
      · exact h.2 z hz
    · rename_i hxy
      push_neg at hxy
      have h := ih x
      refine ⟨h.1, ?_⟩
      intro z hz
      simp only [List.mem_cons] at hz
      rcases hz with rfl | hz
      · exact h.1.trans hxy
      · exact h.2 z hz

theorem exchPass_perm (x : TEvent) (l : List TEvent) :
    List.Perm ((exchPass x l).1 :: (exchPass x l).2) (x :: l) := by
  induction l generalizing x with
  | nil => rfl
  | cons y ys ih =>
    simp only [exchPass]
    split
    · exact (List.Perm.swap x (exchPass y ys).1 (exchPass y ys).2).trans
        ((ih y).cons x)
    · exact (List.Perm.swap y (exchPass x ys).1 (exchPass x ys).2).trans
        ((ih x).cons y) |>.trans (List.Perm.swap x y ys)

theorem exchSortAux_perm (n : Nat) (l : List TEvent) (h : l.length ≤ n) :
    List.Perm (exchSortAux n l) l := by
  induction n generalizing l with
  | zero =>
    have : l = [] := List.length_eq_zero.mp (Nat.le_zero.mp h)
    subst this; simp [exchSortAux]
  | succ n ih =>
    cases l with
    | nil => simp [exchSortAux]
    | cons x xs =>
      simp only [exchSortAux]
      have hlen : (exchPass x xs).2.length ≤ n := by
        rw [exchPass_len]
        exact Nat.le_of_succ_le_succ (by simpa using h)
      exact ((ih _ hlen).cons (exchPass x xs).1).trans (exchPass_perm x xs)

theorem exchSort_perm (l : List TEvent) : List.Perm (exchSort l) l :=
  exchSortAux_perm l.length l (le_refl _)

theorem exchSortAux_sorted (n : Nat) (l : List TEvent) (h : l.length ≤ n) :
    List.Pairwise (fun a b => a.start ≤ b.start) (exchSortAux n l) := by
  induction n generalizing l with
  | zero =>
    have : l = [] := List.length_eq_zero.mp (Nat.le_zero.mp h)
    subst this; simp [exchSortAux]
  | succ n ih =>
    cases l with
    | nil => simp [exchSortAux]
    | cons x xs =>
      simp only [exchSortAux]
      have hlen : (exchPass x xs).2.length ≤ n := by
        rw [exchPass_len]
        exact Nat.le_of_succ_le_succ (by simpa using h)
      refine List.Pairwise.cons ?_ (ih _ hlen)
      intro z hz
      have hz' : z ∈ (exchPass x xs).2 := (exchSortAux_perm n _ hlen).mem_iff.mp hz
      exact (exchPass_min x xs).2 z hz'

theorem exchSort_sorted (l : List TEvent) :
    List.Pairwise (fun a b => a.start ≤ b.start) (exchSort l) :=
  exchSortAux_sorted l.length l (le_refl _)

theorem clipOverlaps_starts (l : List TEvent) :
    (clipOverlaps l).map TEvent.start = l.map TEvent.start := by
  induction l with
  | nil => rfl
  | cons a t ih =>
    cases t with
    | nil => rfl
    | cons b rest =>
      simp only [clipOverlaps, List.map_cons] at ih ⊢
      exact congrArg _ ih

theorem clipOverlaps_head_start (b : TEvent) (rest : List TEvent) :
    ∃ c cs, clipOverlaps (b :: rest) = c :: cs ∧ c.start = b.start := by
  cases rest with
  | nil => exact ⟨b, [], rfl, rfl⟩
  | cons d ds => exact ⟨_, _, rfl, rfl⟩

theorem clipOverlaps_chain (l : List TEvent)
    (h : List.Pairwise (fun a b => a.start ≤ b.start) l) :
    List.Chain' (fun a b => a.eend ≤ b.start) (clipOverlaps l) := by
  induction l with
  | nil => simp [clipOverlaps]
  | cons a t ih =>
    cases t with
    | nil => simp [clipOverlaps]
    | cons b rest =>
      have ihr := ih h.of_cons
      have hab : a.start ≤ b.start := (List.pairwise_cons.mp h).1 b (by simp)
      simp only [clipOverlaps]
      obtain ⟨c, cs, hcl, hcs⟩ := clipOverlaps_head_start b rest
      rw [hcl] at ihr ⊢
      refine List.chain'_cons.mpr ⟨?_, ihr⟩
      show (if a.eend > b.start then b.start else a.eend) ≤ c.start
      rw [hcs]
      split
      · exact le_refl _
      · rename_i hng
        push_neg at hng
        exact hng

/-! # Claim theorems -/

/-- Claim C6: `sortEvents` produces an event list sorted ascending by start
time in which every adjacent pair satisfies earlier `eend ≤` later `start`
(the single left-to-right clipping pass), and on the input events `[0,10)`
and `[5,15)` it returns `[0,5)` followed by `[5,15)`. -/
theorem C6_sortEvents_sorted_nonoverlapping :
    (∀ l : List TEvent,
        List.Pairwise (fun a b => a.start ≤ b.start) (sortEvents l) ∧
          List.Chain' (fun a b => a.eend ≤ b.start) (sortEvents l)) ∧
      sortEvents [⟨0, 10⟩, ⟨5, 15⟩] = [⟨0, 5⟩, ⟨5, 15⟩] := by
  refine ⟨fun l => ⟨?_, clipOverlaps_chain _ (exchSort_sorted l)⟩, ?_⟩
  · have h1 : List.Pairwise (· ≤ ·) ((exchSort l).map TEvent.start) :=
      List.pairwise_map.mpr (exchSort_sorted l)
    rw [← clipOverlaps_starts] at h1
    exact List.pairwise_map.mp h1
  · norm_num [sortEvents, exchSort, exchSortAux, exchPass, clipOverlaps]

theorem relDiff_self (g : Gbl) (htiny : 0 ≤ g.tiny) (a : ℚ) : relDiff g a a = 0 := by
  unfold relDiff
  split
  · rename_i h
    have ha : a ≠ 0 := by
      intro h0
      rw [h0] at h
      simp only [abs_zero] at h
      exact absurd h (not_lt.mpr htiny)
    rw [div_self ha]
    ring
  · rfl

/-- Claim C4: `inflowHasChanged` returns true iff some node trips the
relative-change test on lateral inflow or — being an outfall or a degree-0
node — on total inflow; and (for nonnegative `TINY` and `LatFlowTol`) it
returns false when every node's new lateral and total inflows equal the
previous step's values. -/
theorem C4_inflowHasChanged_iff (g : Gbl) (nodes : List RNode)
    (htiny : 0 ≤ g.tiny) (htol : 0 ≤ g.latFlowTol) :
    (inflowHasChanged g nodes = true ↔
        ∃ n ∈ nodes,
          |relDiff g n.oldLatFlow n.newLatFlow| > g.latFlowTol ∨
            ((n.ntype = NodeType.outfall ∨ n.degree = 0) ∧
              |relDiff g n.oldFlowInflow n.inflow| > g.latFlowTol)) ∧
      ((∀ n ∈ nodes, n.newLatFlow = n.oldLatFlow ∧ n.inflow = n.oldFlowInflow) →
        inflowHasChanged g nodes = false) := by
  constructor
  · simp [inflowHasChanged, List.any_eq_true, nodeTriggers]
  · intro hsame
    simp only [inflowHasChanged, List.any_eq_false]
    intro n hn
    obtain ⟨h1, h2⟩ := hsame n hn
    simp [nodeTriggers, h1, h2, relDiff_self g htiny, not_lt.mpr htol]

/-- Witness for C4: with the sample tolerances, a single node whose lateral
and total inflows are unchanged is reported as unchanged. -/
theorem C4_witness :
    (0 ≤ gEx.tiny ∧ 0 ≤ gEx.latFlowTol) ∧
      inflowHasChanged gEx [{ nodeEx with oldLatFlow := 1, newLatFlow := 1 }] = false := by
  refine ⟨⟨by norm_num [gEx], by norm_num [gEx]⟩, ?_⟩
  refine (C4_inflowHasChanged_iff gEx _ (by norm_num [gEx]) (by norm_num [gEx])).2 ?_
  intro n hn
  simp only [List.mem_singleton] at hn
  subst hn
  exact ⟨rfl, rfl⟩

/-- Claim C7 (amended): once the error latch is set, `routing_execute` is a
no-op returning the state unchanged; `routing_getRoutingStep`,
`routing_open` and `routing_close` do not check the latch (the first has no
side effects anyway, but the latter two still mutate state). -/
theorem C7_latched_execute_is_noop (ext : Ext) (g : Gbl) (step : ℚ) (s : RState)
    (h : s.errorCode = true) : routing_execute ext g step s = some s := by
  simp [routing_execute, h]

/-- Witness for C7: a concrete latched state is returned unchanged by
`routing_execute`. -/
theorem C7_latched_witness :
    ({ stateEx with errorCode := true } : RState).errorCode = true ∧
      routing_execute extEx gEx 30 { stateEx with errorCode := true } =
        some { stateEx with errorCode := true } :=
  ⟨rfl, C7_latched_execute_is_noop extEx gEx 30 _ rfl⟩

/-- Counterexample to C7 as stated: with the error latch set, `routing_open`
is not a no-op — it still resets the event cursor (and more), so not every
public entry point becomes side-effect free. -/
theorem C7_counterexample :
    ({ stateEx with errorCode := true, nextEvent := 5 } : RState).errorCode = true ∧
      ({ stateEx with errorCode := true, nextEvent := 5 } : RState).nextEvent = 5 ∧
      (routing_open extEx gEx { stateEx with errorCode := true, nextEvent := 5 }).nextEvent = 0 ∧
      (routing_open extEx gEx { stateEx with errorCode := true, nextEvent := 5 }).errorCode
        = true := by
  refine ⟨rfl, rfl, ?_, ?_⟩ <;>
    simp [routing_open, routing_openRest, extEx, gEx, stateEx, pushT]

theorem dwfFlowLookup_none_iff (l : List DwfRec) :
    dwfFlowLookup l = none ↔ ∃ r ∈ l, r.param < 0 := by
  induction l with
  | nil => simp [dwfFlowLookup]
  | cons r rs ih =>
    simp only [dwfFlowLookup]
    split
    · rename_i h
      simp only [List.mem_cons]
      exact iff_of_true trivial ⟨r, Or.inl rfl, h⟩
    · rename_i h
      rw [ih]
      constructor
      · rintro ⟨x, hx, hp⟩
        exact ⟨x, List.mem_cons_of_mem r hx, hp⟩
      · rintro ⟨x, hx, hp⟩
        rcases List.mem_cons.mp hx with rfl | hx
        · exact absurd hp h
        · exact ⟨x, hx, hp⟩

theorem dwfFlowLookup_some_eq_zero (l : List DwfRec) (v : ℚ)
    (h : dwfFlowLookup l = some v) : v = 0 := by
  induction l with
  | nil =>
    simp only [dwfFlowLookup, Option.some.injEq] at h
    exact h.symm
  | cons r rs ih =>
    simp only [dwfFlowLookup] at h
    split at h
    · exact absurd h (by simp)
    · exact ih h

theorem dwfNodeStep_none_iff (g : Gbl) (pollut : List PollutRec) (n : RNode) :
    dwfNodeStep g pollut n = none ↔ ∃ r ∈ n.dwfInflow, r.param < 0 := by
  by_cases hemp : n.dwfInflow.isEmpty
  · rw [List.isEmpty_iff] at hemp
    simp [dwfNodeStep, hemp]
  · cases hl : dwfFlowLookup n.dwfInflow with
    | none =>
      refine ⟨fun _ => (dwfFlowLookup_none_iff _).mp hl, fun _ => ?_⟩
      simp [dwfNodeStep, hemp, hl]
    | some q0 =>
      have hq : q0 = 0 := dwfFlowLookup_some_eq_zero _ _ hl
      subst hq
      have hnone : ¬∃ r ∈ n.dwfInflow, r.param < 0 := by
        rw [← dwfFlowLookup_none_iff]
        simp [hl]
      refine iff_of_false ?_ hnone
      simp [dwfNodeStep, hemp, hl]

theorem addDwfAux_none_iff (g : Gbl) (pollut : List PollutRec) (nodes : List RNode) :
    addDwfAux g pollut nodes = none ↔ ∃ n ∈ nodes, ∃ r ∈ n.dwfInflow, r.param < 0 := by
  induction nodes with
  | nil => simp [addDwfAux]
  | cons n ns ih =>
    cases h : dwfNodeStep g pollut n with
    | none =>
      have hn := (dwfNodeStep_none_iff g pollut n).mp h
      refine ⟨fun _ => ⟨n, List.mem_cons_self n ns, hn⟩, fun _ => ?_⟩
      simp [addDwfAux, h]
    | some r =>
      have hnot : ¬∃ r' ∈ n.dwfInflow, r'.param < 0 :=
        (dwfNodeStep_none_iff g pollut n).not.mp (by simp [h])
      cases h2 : addDwfAux g pollut ns with
      | none =>
        obtain ⟨m, hm, hr⟩ := ih.mp h2
        refine ⟨fun _ => ⟨m, List.mem_cons_of_mem n hm, hr⟩, fun _ => ?_⟩
        simp [addDwfAux, h, h2]
      | some r2 =>
        refine iff_of_false ?_ ?_
        · simp [addDwfAux, h, h2]
        · rintro ⟨m, hm, hr⟩
          rcases List.mem_cons.mp hm with rfl | hm
          · exact hnot hr
          · exact (ih.not.mp (by simp [h2])) ⟨m, hm, hr⟩

/-- Claim C9 (amended): `addDryWeatherInflows` faults on the undeclared
identifier `inObj` exactly when some node's dry-weather inflow list contains
a flow-carrying record (`param < 0`); networks whose dry-weather records are
all pollutant records (`param ≥ 0`) complete normally. -/
theorem C9_dwf_inObj_fault_iff (g : Gbl) (s : RState) :
    addDryWeatherInflows g s = none ↔
      ∃ n ∈ s.nodes, ∃ r ∈ n.dwfInflow, r.param < 0 := by
  unfold addDryWeatherInflows
  rw [Option.map_eq_none']
  exact addDwfAux_none_iff g s.pollut s.nodes

/-- Counterexample to C9 as stated: a network containing a dry-weather inflow
record (a pollutant record, `param = 0`) on which `addDryWeatherInflows`
completes normally — the fault is not reachable from every network with a
dry-weather record. -/
theorem C9_counterexample :
    addDryWeatherInflows gEx
        { stateEx with nodes := [{ nodeEx with dwfInflow := [⟨0⟩] }] } ≠ none ∧
      ({ nodeEx with dwfInflow := [⟨(0 : Int)⟩] } : RNode).dwfInflow ≠ [] := by
  constructor
  · simp [addDryWeatherInflows, addDwfAux, dwfNodeStep, dwfFlowLookup, stateEx, nodeEx]
  · simp [nodeEx]

theorem filter_outQualMap_isOutQual (f : Nat → ℚ) (fl : Option Bool) (l : List Nat) :
    (l.map (fun k => TraceEv.outflowQual k (f k) fl)).filter isOutQualEv =
      l.map (fun k => TraceEv.outflowQual k (f k) fl) := by
  induction l with
  | nil => rfl
  | cons a t ih => simp [List.filter_cons, isOutQualEv, ih]

theorem filter_outQualMap_isOutFlow (f : Nat → ℚ) (fl : Option Bool) (l : List Nat) :
    (l.map (fun k => TraceEv.outflowQual k (f k) fl)).filter isOutFlowEv = [] := by
  induction l with
  | nil => rfl
  | cons a t ih => simp [List.filter_cons, isOutFlowEv, ih]

theorem filter_outQualMap_isInFlow (f : Nat → ℚ) (fl : Option Bool) (l : List Nat) :
    (l.map (fun k => TraceEv.outflowQual k (f k) fl)).filter isInFlowEv = [] := by
  induction l with
  | nil => rfl
  | cons a t ih => simp [List.filter_cons, isInFlowEv, ih]

/-- Claim C8: in `removeOutflows`, a node's strictly positive system-outflow
quantity is reported to the ledger as one outflow call together with
per-pollutant masses `q * newQual[p]` and no external-inflow call; a negative
quantity is instead reported as a single external inflow of magnitude `-q`,
with no outflow call for that node. -/
theorem C8_removeOutflows_ledger (ext : Ext) (i : Nat) (n : RNode) (npoll : Nat) :
    (ext.sysOutflow i > 0 →
        (outflowEvents ext i n npoll).filter isOutFlowEv =
            [TraceEv.outflowFlow (ext.sysOutflow i) none] ∧
          (outflowEvents ext i n npoll).filter isInFlowEv = [] ∧
          (outflowEvents ext i n npoll).filter isOutQualEv =
            (List.range npoll).map
                (fun p => TraceEv.outflowQual p (ext.sysOutflow i * n.newQual.getD p 0) none) ++
              (if n.newLatFlow < 0 then
                (List.range npoll).map
                  (fun p => TraceEv.outflowQual p (-n.newLatFlow * n.newQual.getD p 0) (some false))
               else [])) ∧
      (ext.sysOutflow i < 0 →
        (outflowEvents ext i n npoll).filter isInFlowEv =
            [TraceEv.inflowFlow .external (-ext.sysOutflow i)] ∧
          (outflowEvents ext i n npoll).filter isOutFlowEv = []) := by
  constructor
  · intro hq
    simp only [outflowEvents]
    rw [if_pos hq]
    by_cases hlat : n.newLatFlow < 0 <;>
      simp [hlat, List.filter_append, List.filter_cons, isOutFlowEv, isInFlowEv, isOutQualEv,
        filter_outQualMap_isOutQual, filter_outQualMap_isOutFlow, filter_outQualMap_isInFlow]
  · intro hq
    simp only [outflowEvents]
    rw [if_neg (not_lt.mpr (le_of_lt hq))]
    by_cases hlat : n.newLatFlow < 0 <;>
      simp [hlat, List.filter_append, List.filter_cons, isOutFlowEv, isInFlowEv, isOutQualEv,
        filter_outQualMap_isOutQual, filter_outQualMap_isOutFlow, filter_outQualMap_isInFlow]

/-- Witness for C8: a node whose system outflow is `3` with one pollutant at
concentration `4` yields exactly one ledger outflow call of `3` and the mass
call `3 * 4`. -/
theorem C8_witness :
    extPosOut.sysOutflow 0 > 0 ∧
      (outflowEvents extPosOut 0 nodeOneQual 1).filter isOutFlowEv =
        [TraceEv.outflowFlow 3 none] ∧
      (outflowEvents extPosOut 0 nodeOneQual 1).filter isOutQualEv =
        [TraceEv.outflowQual 0 12 none] := by
  have h3 : extPosOut.sysOutflow 0 > 0 := by norm_num [extPosOut, extEx]
  have h := (C8_removeOutflows_ledger extPosOut 0 nodeOneQual 1).1 h3
  refine ⟨h3, ?_, ?_⟩
  · rw [h.1]
    norm_num [extPosOut, extEx]
  · rw [h.2.2]
    norm_num [extPosOut, extEx, nodeOneQual, nodeEx, List.range_succ]

/-- Counterexample to C1 as stated: an outfall node with previous-step net
inflow `-3` and a zero direct external inflow has its `newLatFlow` increased
by `0`, not by `+3` — the reverse-flow correction happens after the
`newLatFlow` update and only rebinds the local flow variable. -/
theorem C1_counterexample :
    (addExternalInflows extEx gEx 0 { stateEx with nodes := [nodeRevZero] }).nodes.map
        RNode.newLatFlow = [0] ∧
      nodeRevZero.ntype = NodeType.outfall ∧ nodeRevZero.oldNetInflow = -3 ∧
      nodeRevZero.newLatFlow = 0 ∧
      extFlowLookup extEx 0 nodeRevZero.extInflow = 0 ∧ ((0 : ℚ) ≠ 0 + 3) := by
  refine ⟨?_, rfl, rfl, rfl, ?_, by norm_num⟩
  · norm_num [addExternalInflows, addExtAux, extNodeStep, extFlowLookup, tolFilter,
      extQualLoop, nodeRevZero, stateEx, nodeEx, extEx, gEx, List.find?]
  · norm_num [extFlowLookup, nodeRevZero, nodeEx, extEx, List.find?]

/-- Claim C1 (amended): in `addExternalInflows` the outfall reverse-flow
quantity `q - oldNetInflow` is computed only after `newLatFlow` and the
ledger were updated, so it feeds solely the concentration-based pollutant
mass computation: every node's `newLatFlow` grows by exactly the
tolerance-filtered direct external inflow (0 in the claim's scenario, not
+3), while a concentration record's mass is scaled by
`q - oldNetInflow`. -/
theorem C1_reverse_flow_feeds_only_concen (ext : Ext) (g : Gbl) (date : ℚ) (n : RNode)
    (fRec cRec : ExtInflowRec) (hf : fRec.kind = InflowKind.flow)
    (hc : cRec.kind = InflowKind.concen) (hlist : n.extInflow = [fRec, cRec])
    (hout : n.ntype = NodeType.outfall) (hneg : n.oldNetInflow < 0) :
    (∀ m : RNode, (extNodeStep ext g date m).1.newLatFlow =
        m.newLatFlow + tolFilter g.flowTol (extFlowLookup ext date m.extInflow)) ∧
      (extNodeStep ext g date n).1.newQual =
        updN n.newQual cRec.param
          (· + ext.extInflowVal cRec date *
            (tolFilter g.flowTol (extFlowLookup ext date n.extInflow) - n.oldNetInflow)) := by
  constructor
  · intro m
    by_cases hemp : m.extInflow.isEmpty
    · rw [List.isEmpty_iff] at hemp
      simp [extNodeStep, hemp, extFlowLookup, tolFilter]
    · simp [extNodeStep, hemp]
  · have hemp : n.extInflow.isEmpty = false := by rw [hlist]; rfl
    simp only [extNodeStep, hemp, Bool.false_eq_true, if_false, if_pos (And.intro hout hneg)]
    rw [hlist]
    simp [extQualLoop, hf, hc, mul_comm]

/-- Witness for C1's amended statement: with a concentration value of `5`, a
zero direct inflow and previous-step net inflow `-3`, the node's `newLatFlow`
gains `0` while the pollutant mass recorded is `5 * (0 - (-3)) = 15`. -/
theorem C1_witness :
    (nodeRevConcen.ntype = NodeType.outfall ∧ nodeRevConcen.oldNetInflow < 0) ∧
      (extNodeStep extConcen gEx 0 nodeRevConcen).1.newLatFlow = 0 ∧
      (extNodeStep extConcen gEx 0 nodeRevConcen).1.newQual = [15] := by
  have h := C1_reverse_flow_feeds_only_concen extConcen gEx 0 nodeRevConcen
    ⟨.flow, 0⟩ ⟨.concen, 0⟩ (by rfl) (by rfl) (by rfl) (by rfl)
    (by norm_num [nodeRevConcen, nodeEx])
  have hfc : InflowKind.flow = InflowKind.concen ↔ False := by simp
  refine ⟨⟨by rfl, by norm_num [nodeRevConcen, nodeEx]⟩, ?_, ?_⟩
  · rw [h.1 nodeRevConcen]
    norm_num [nodeRevConcen, nodeEx, extFlowLookup, extConcen, extEx, tolFilter,
      List.find?, hfc]
  · rw [h.2]
    norm_num [nodeRevConcen, nodeEx, extFlowLookup, extConcen, extEx, tolFilter,
      List.find?, updN, hfc]

theorem finishStep_le (ext : Ext) (g : Gbl) (fixedStep : ℚ) (s : RState) (rs0 : ℚ)
    (h0 : rs0 ≠ 0) : finishStep ext g fixedStep s rs0 ≤ rs0 := by
  unfold finishStep
  rw [if_neg h0]
  dsimp only
  split
  · split
    · rename_i hge
      rw [ge_iff_le, ← sub_nonneg] at hge
      have h1000 : (0 : ℚ) < 1000 := by norm_num
      rw [div_le_iff₀ h1000]
      nlinarith [hge]
    · exact le_refl _
  · exact le_refl _

/-- Claim C5 (amended): between events, a step produced by either
event-specific branch of `routing_getRoutingStep` — the candidate
`min(runoff, report)` step or the early full-step return — never advances the
clock's date past the next pending event's start; the fall-through to the
hydraulic solver's sizing, taken when both event tests fail, carries no such
guarantee (see the counterexample). -/
theorem C5_event_branch_steps_stay_before_start (ext : Ext) (g : Gbl) (fixedStep : ℚ)
    (s : RState) (ev : TEvent)
    (hmono : StrictMono ext.getDateTime)
    (hlinks : s.links.length ≠ 0)
    (hnum : 0 < s.numEvents) (hbe : s.betweenEvents = true)
    (hget : s.swmmEvent.get? s.nextEvent = some ev)
    (hbr : (ext.getDateTime (min s.newRunoffTime s.reportTime) >
              ext.getDateTime s.newRoutingTime ∧
            ext.getDateTime (min s.newRunoffTime s.reportTime) < ev.start) ∨
           ext.getDateTime (s.newRoutingTime + 1000 * fixedStep) < ev.start) :
    ∃ r, routing_getRoutingStep ext g fixedStep s = some r ∧
      ext.getDateTime (s.newRoutingTime + 1000 * r) < ev.start := by
  unfold routing_getRoutingStep
  rw [if_neg hlinks, if_pos (And.intro hnum hbe), hget]
  simp only
  by_cases hc : ext.getDateTime (min s.newRunoffTime s.reportTime) >
      ext.getDateTime s.newRoutingTime ∧
      ext.getDateTime (min s.newRunoffTime s.reportTime) < ev.start
  · rw [if_pos hc]
    set rs0 := (min s.newRunoffTime s.reportTime - s.newRoutingTime) / 1000 with hrs0
    have hlt : s.newRoutingTime < min s.newRunoffTime s.reportTime := hmono.lt_iff_lt.mp hc.1
    have hpos : 0 < rs0 := by
      rw [hrs0]
      exact div_pos (by linarith) (by norm_num)
    have hr := finishStep_le ext g fixedStep s rs0 (ne_of_gt hpos)
    refine ⟨finishStep ext g fixedStep s rs0, rfl, ?_⟩
    have hle : s.newRoutingTime + 1000 * finishStep ext g fixedStep s rs0 ≤
        min s.newRunoffTime s.reportTime := by
      have : (1000 : ℚ) * rs0 = min s.newRunoffTime s.reportTime - s.newRoutingTime := by
        rw [hrs0]
        field_simp
      nlinarith [hr]
    exact lt_of_le_of_lt (hmono.monotone hle) hc.2
  · rw [if_neg hc]
    rcases hbr with hbr | hbr
    · exact absurd hbr hc
    · rw [if_pos hbr]
      exact ⟨fixedStep, rfl, hbr⟩

/-- Counterexample to C5 as stated: between events, when neither event test
holds, `routing_getRoutingStep` falls through to the hydraulic solver's step
(here the full requested step `1`) and returns it although advancing the
clock by it moves the date to `1000`, past the pending event's start
`100`. -/
theorem C5_counterexample :
    routing_getRoutingStep extEx gEx 1 sBetween = some 1 ∧
      sBetween.swmmEvent.get? sBetween.nextEvent = some ⟨100, 200⟩ ∧
      extEx.getDateTime (sBetween.newRoutingTime + 1000 * 1) > (100 : ℚ) ∧
      0 < sBetween.numEvents ∧ sBetween.betweenEvents = true ∧
      sBetween.links.length ≠ 0 := by
  refine ⟨?_, by rfl, ?_, by norm_num [sBetween, stateEx], by rfl, by simp [sBetween, stateEx]⟩
  · norm_num [routing_getRoutingStep, finishStep, sBetween, stateEx, extEx, gEx]
  · norm_num [extEx, sBetween, stateEx]

/-- Witness for C5's amended statement: with the pending event starting at
date `2000`, the early full-step return (`fixedStep = 1`) keeps the clock's
date at `1000`, before the event start. -/
theorem C5_witness :
    ∃ r, routing_getRoutingStep extEx gEx 1 { sBetween with swmmEvent := [⟨2000, 3000⟩] } =
        some r ∧
      extEx.getDateTime
          (({ sBetween with swmmEvent := [⟨2000, 3000⟩] } : RState).newRoutingTime + 1000 * r) <
        (⟨2000, 3000⟩ : TEvent).start := by
  refine C5_event_branch_steps_stay_before_start extEx gEx 1 _ ⟨2000, 3000⟩
    strictMono_id (by simp [sBetween, stateEx]) (by norm_num [sBetween, stateEx]) (by rfl)
    (by rfl) (Or.inr ?_)
  norm_num [extEx, sBetween, stateEx]

/-! ## Conservation of the aggregation phase (C3) -/

theorem inflowFlowSum_append (a b : List TraceEv) :
    inflowFlowSum (a ++ b) = inflowFlowSum a + inflowFlowSum b := by
  induction a with
  | nil => simp [inflowFlowSum]
  | cons e t ih => cases e <;> simp [inflowFlowSum, ih, add_assoc]

theorem latFlowSum_cons (n : RNode) (ns : List RNode) :
    latFlowSum (n :: ns) = n.newLatFlow + latFlowSum ns := by
  simp [latFlowSum]

theorem inflowFlowSum_qualMap (c : InflowCat) (w : Nat → ℚ) (l : List Nat) :
    inflowFlowSum (l.map (fun p => TraceEv.inflowQual c p (w p))) = 0 := by
  induction l with
  | nil => rfl
  | cons a t ih => simp [inflowFlowSum, ih]

theorem modN?_latFlowSum (f : RNode → RNode) (δ : ℚ)
    (hf : ∀ a, (f a).newLatFlow = a.newLatFlow + δ) :
    ∀ (l : List RNode) (i : Nat) (l' : List RNode), modN? l i f = some l' →
      latFlowSum l' = latFlowSum l + δ := by
  intro l
  induction l with
  | nil =>
    intro i l' hm
    simp [modN?] at hm
  | cons a as ih =>
    intro i l' hm
    cases i with
    | zero =>
      simp only [modN?, Option.some.injEq] at hm
      subst hm
      rw [latFlowSum_cons, latFlowSum_cons, hf]
      ring
    | succ n =>
      simp only [modN?, Option.map_eq_some'] at hm
      obtain ⟨as', h1, h2⟩ := hm
      subst h2
      rw [latFlowSum_cons, latFlowSum_cons, ih n as' h1]
      ring

theorem extQualLoop_flowSum (ext : Ext) (date q : ℚ) (rs : List ExtInflowRec) :
    ∀ qual, inflowFlowSum (extQualLoop ext date q rs qual).2 = 0 := by
  induction rs with
  | nil => intro qual; rfl
  | cons r rrs ih =>
    intro qual
    simp only [extQualLoop]
    split
    · simp [inflowFlowSum, ih]
    · exact ih qual

theorem extNodeStep_latFlow (ext : Ext) (g : Gbl) (date : ℚ) (n : RNode) :
    (extNodeStep ext g date n).1.newLatFlow =
      n.newLatFlow + inflowFlowSum (extNodeStep ext g date n).2 := by
  by_cases hemp : n.extInflow.isEmpty
  · simp [extNodeStep, hemp, inflowFlowSum]
  · simp [extNodeStep, hemp, inflowFlowSum, extQualLoop_flowSum]

theorem addExtAux_sum (ext : Ext) (g : Gbl) (date : ℚ) (ns : List RNode) :
    latFlowSum (addExtAux ext g date ns).1 =
      latFlowSum ns + inflowFlowSum (addExtAux ext g date ns).2 := by
  induction ns with
  | nil => simp [addExtAux, latFlowSum, inflowFlowSum]
  | cons n t ih =>
    simp only [addExtAux]
    rw [latFlowSum_cons, latFlowSum_cons, inflowFlowSum_append,
      extNodeStep_latFlow ext g date n, ih]
    ring

theorem addExternalInflows_balance (ext : Ext) (g : Gbl) (date : ℚ) (s : RState) :
    latFlowSum (addExternalInflows ext g date s).nodes + inflowFlowSum s.trace =
      latFlowSum s.nodes + inflowFlowSum (addExternalInflows ext g date s).trace := by
  simp only [addExternalInflows]
  rw [inflowFlowSum_append, addExtAux_sum]
  ring

theorem dwfDefaultQualAux_flowSum (q : ℚ) (prs : List PollutRec) :
    ∀ p qual, inflowFlowSum (dwfDefaultQualAux q prs p qual).2 = 0 := by
  induction prs with
  | nil => intro p qual; rfl
  | cons pr t ih =>
    intro p qual
    simp only [dwfDefaultQualAux]
    split
    · simp [inflowFlowSum, ih]
    · exact ih (p + 1) qual

theorem dwfNodeStep_latFlow (g : Gbl) (pollut : List PollutRec) (n : RNode)
    (r : RNode × List TraceEv) (h : dwfNodeStep g pollut n = some r) :
    r.1.newLatFlow = n.newLatFlow + inflowFlowSum r.2 := by
  unfold dwfNodeStep at h
  split at h
  · simp only [Option.some.injEq] at h
    subst h
    simp [inflowFlowSum]
  · cases hl : dwfFlowLookup n.dwfInflow with
    | none => rw [hl] at h; exact absurd h (by simp)
    | some q0 =>
      have hq : q0 = 0 := dwfFlowLookup_some_eq_zero _ _ hl
      subst hq
      rw [hl] at h
      simp only [ite_self] at h
      rw [if_pos (le_refl (0 : ℚ))] at h
      simp only [Option.some.injEq] at h
      subst h
      simp [inflowFlowSum]

theorem addDwfAux_sum (g : Gbl) (pollut : List PollutRec) :
    ∀ (ns : List RNode) (r : List RNode × List TraceEv),
      addDwfAux g pollut ns = some r →
      latFlowSum r.1 = latFlowSum ns + inflowFlowSum r.2 := by
  intro ns
  induction ns with
  | nil =>
    intro r h
    simp only [addDwfAux, Option.some.injEq] at h
    subst h
    simp [latFlowSum, inflowFlowSum]
  | cons n t ih =>
    intro r h
    simp only [addDwfAux, Option.bind_eq_bind, Option.bind_eq_some,
      Option.some.injEq] at h
    obtain ⟨rn, h1, rest, h2, h3⟩ := h
    subst h3
    rw [latFlowSum_cons, latFlowSum_cons, inflowFlowSum_append,
      dwfNodeStep_latFlow g pollut n rn h1, ih rest h2]
    ring

theorem addDryWeatherInflows_balance (g : Gbl) (s s' : RState)
    (h : addDryWeatherInflows g s = some s') :
    latFlowSum s'.nodes + inflowFlowSum s.trace =
      latFlowSum s.nodes + inflowFlowSum s'.trace := by
  unfold addDryWeatherInflows at h
  rw [Option.map_eq_some'] at h
  obtain ⟨r, h1, h2⟩ := h
  subst h2
  simp only []
  rw [inflowFlowSum_append, addDwfAux_sum g s.pollut s.nodes r h1]
  ring

theorem addWetAux_sum (ext : Ext) (f : ℚ) (npoll : Nat) :
    ∀ (l : List (Nat × SubcatchRec)) (nodes : List RNode)
      (r : List RNode × List TraceEv),
      addWetAux ext f npoll l nodes = some r →
      latFlowSum r.1 = latFlowSum nodes + inflowFlowSum r.2 := by
  intro l
  induction l with
  | nil =>
    intro nodes r h
    simp only [addWetAux, Option.some.injEq] at h
    subst h
    simp [inflowFlowSum]
  | cons isc t ih =>
    intro nodes r h
    obtain ⟨i, sc⟩ := isc
    simp only [addWetAux] at h
    split at h
    · split at h
      · exact absurd h (by simp)
      · rename_i nodes' hmod
        simp only [Option.bind_eq_bind, Option.bind_eq_some, Option.some.injEq] at h
        obtain ⟨rr, h1, h2⟩ := h
        subst h2
        have hdelta := modN?_latFlowSum _ (ext.subcatchWtdOutflow i f)
          (fun a => rfl) nodes sc.outNode.toNat nodes' hmod
        rw [ih nodes' rr h1, hdelta, inflowFlowSum_append]
        simp only [inflowFlowSum, inflowFlowSum_qualMap, List.append_eq,
          inflowFlowSum_append]
        ring
    · exact ih nodes r h

theorem addWetWeatherInflows_balance (ext : Ext) (rt : ℚ) (s s' : RState)
    (h : addWetWeatherInflows ext rt s = some s') :
    latFlowSum s'.nodes + inflowFlowSum s.trace =
      latFlowSum s.nodes + inflowFlowSum s'.trace := by
  unfold addWetWeatherInflows at h
  split at h
  · simp only [Option.some.injEq] at h
    subst h
    rfl
  · rw [Option.map_eq_some'] at h
    obtain ⟨r, h1, h2⟩ := h
    subst h2
    simp only []
    rw [inflowFlowSum_append, addWetAux_sum ext _ _ _ _ r h1]
    ring

theorem addGwAux_sum (g : Gbl) (f : ℚ) (pollut : List PollutRec) :
    ∀ (l : List SubcatchRec) (nodes : List RNode) (r : List RNode × List TraceEv),
      addGwAux g f pollut l nodes = some r →
      latFlowSum r.1 = latFlowSum nodes + inflowFlowSum r.2 := by
  intro l
  induction l with
  | nil =>
    intro nodes r h
    simp only [addGwAux, Option.some.injEq] at h
    subst h
    simp [inflowFlowSum]
  | cons sc t ih =>
    intro nodes r h
    simp only [addGwAux] at h
    rcases hgw : sc.groundwater with _ | gw
    · rw [hgw] at h
      exact ih nodes r h
    · rw [hgw] at h
      simp only [] at h
      split at h
      · split at h
        · exact ih nodes r h
        · split at h
          · exact absurd h (by simp)
          · rename_i nodes' hmod
            simp only [Option.bind_eq_bind, Option.bind_eq_some, Option.some.injEq] at h
            obtain ⟨rr, h1, h2⟩ := h
            subst h2
            have hdelta := modN?_latFlowSum _
              (((1 - f) * gw.oldFlow + f * gw.newFlow) * sc.area)
              (fun a => rfl) nodes gw.node.toNat nodes' hmod
            rw [ih nodes' rr h1, hdelta, inflowFlowSum_append]
            by_cases hq : ((1 - f) * gw.oldFlow + f * gw.newFlow) * sc.area > 0
            · rw [if_pos hq]
              simp only [inflowFlowSum, inflowFlowSum_qualMap, List.append_eq,
                inflowFlowSum_append]
              ring
            · rw [if_neg hq]
              simp only [inflowFlowSum, List.append_eq, inflowFlowSum_append]
              ring
      · exact ih nodes r h

theorem addGroundwaterInflows_balance (g : Gbl) (rt : ℚ) (s s' : RState)
    (h : addGroundwaterInflows g rt s = some s') :
    latFlowSum s'.nodes + inflowFlowSum s.trace =
      latFlowSum s.nodes + inflowFlowSum s'.trace := by
  unfold addGroundwaterInflows at h
  split at h
  · simp only [Option.some.injEq] at h
    subst h
    rfl
  · rw [Option.map_eq_some'] at h
    obtain ⟨r, h1, h2⟩ := h
    subst h2
    simp only []
    rw [inflowFlowSum_append, addGwAux_sum g _ _ _ _ r h1]
    ring

theorem lid_addDrainInflow_sum (ext : Ext) (i : Nat) (f : ℚ) (nodes : List RNode)
    (r : List RNode × List TraceEv) (h : lid_addDrainInflow ext i f nodes = some r) :
    latFlowSum r.1 = latFlowSum nodes + inflowFlowSum r.2 := by
  unfold lid_addDrainInflow at h
  rw [Option.map_eq_some'] at h
  obtain ⟨nodes', h1, h2⟩ := h
  subst h2
  have hdelta := modN?_latFlowSum _ (ext.lidDrainFlow i f) (fun a => rfl)
    nodes (ext.lidDrainNode i) nodes' h1
  simp [hdelta, inflowFlowSum]

theorem addLidAux_sum (ext : Ext) (f : ℚ) :
    ∀ (l : List (Nat × SubcatchRec)) (nodes : List RNode)
      (r : List RNode × List TraceEv),
      addLidAux ext f l nodes = some r →
      latFlowSum r.1 = latFlowSum nodes + inflowFlowSum r.2 := by
  intro l
  induction l with
  | nil =>
    intro nodes r h
    simp only [addLidAux, Option.some.injEq] at h
    subst h
    simp [inflowFlowSum]
  | cons isc t ih =>
    intro nodes r h
    obtain ⟨i, sc⟩ := isc
    simp only [addLidAux] at h
    split at h
    · simp only [Option.bind_eq_bind, Option.bind_eq_some, Option.some.injEq] at h
      obtain ⟨r1, h1, r2, h2, h3⟩ := h
      subst h3
      rw [inflowFlowSum_append, ih r1.1 r2 h2, lid_addDrainInflow_sum ext i f nodes r1 h1]
      ring
    · exact ih nodes r h

theorem addLidDrainInflows_balance (ext : Ext) (rt : ℚ) (s s' : RState)
    (h : addLidDrainInflows ext rt s = some s') :
    latFlowSum s'.nodes + inflowFlowSum s.trace =
      latFlowSum s.nodes + inflowFlowSum s'.trace := by
  unfold addLidDrainInflows at h
  split at h
  · simp only [Option.some.injEq] at h
    subst h
    rfl
  · rw [Option.map_eq_some'] at h
    obtain ⟨r, h1, h2⟩ := h
    subst h2
    simp only []
    rw [inflowFlowSum_append, addLidAux_sum ext _ _ _ r h1]
    ring

theorem addRdiiInflows_balance (ext : Ext) (date : ℚ) (s s' : RState)
    (h : addRdiiInflows ext date s = some s') :
    latFlowSum s'.nodes + inflowFlowSum s.trace =
      latFlowSum s.nodes + inflowFlowSum s'.trace := by
  unfold addRdiiInflows at h
  split at h
  · simp only [Option.some.injEq] at h
    subst h
    rfl
  · exact absurd h (by simp)

theorem addIfaceAux_sum (ext : Ext) (g : Gbl) (npoll : Nat) :
    ∀ (l : List Nat) (nodes : List RNode) (r : List RNode × List TraceEv),
      addIfaceAux ext g npoll l nodes = some r →
      latFlowSum r.1 = latFlowSum nodes + inflowFlowSum r.2 := by
  intro l
  induction l with
  | nil =>
    intro nodes r h
    simp only [addIfaceAux, Option.some.injEq] at h
    subst h
    simp [inflowFlowSum]
  | cons i t ih =>
    intro nodes r h
    simp only [addIfaceAux] at h
    split at h
    · exact ih nodes r h
    · split at h
      · exact ih nodes r h
      · split at h
        · exact absurd h (by simp)
        · rename_i nodes' hmod
          simp only [Option.bind_eq_bind, Option.bind_eq_some, Option.some.injEq] at h
          obtain ⟨rr, h1, h2⟩ := h
          subst h2
          have hdelta := modN?_latFlowSum _ (ext.ifaceFlow i) (fun a => rfl)
            nodes (ext.ifaceNode i).toNat nodes' hmod
          rw [ih nodes' rr h1, hdelta, inflowFlowSum_append]
          by_cases hq : ext.ifaceFlow i > 0
          · rw [if_pos hq]
            simp only [inflowFlowSum, inflowFlowSum_qualMap, List.append_eq,
              inflowFlowSum_append]
            ring
          · rw [if_neg hq]
            simp only [inflowFlowSum, List.append_eq, inflowFlowSum_append]
            ring

theorem addIfaceInflows_balance (ext : Ext) (g : Gbl) (date : ℚ) (s s' : RState)
    (h : addIfaceInflows ext g date s = some s') :
    latFlowSum s'.nodes + inflowFlowSum s.trace =
      latFlowSum s.nodes + inflowFlowSum s'.trace := by
  unfold addIfaceInflows at h
  split at h
  · simp only [Option.some.injEq] at h
    subst h
    rfl
  · rw [Option.map_eq_some'] at h
    obtain ⟨r, h1, h2⟩ := h
    subst h2
    simp only []
    rw [inflowFlowSum_append, addIfaceAux_sum ext g _ _ _ r h1]
    ring

/-- Claim C3: whenever the aggregation phase of a routing step completes, the
sum of all flows it reported to the mass-balance ledger through
`massbal_addInflowFlow` equals the total amount it added to the nodes'
`newLatFlow` fields.  (`lid_addDrainInflow` is not part of `src/` and is
modelled from the spec as contributing equal amounts to both.) -/
theorem C3_aggregation_conserves_flow (ext : Ext) (g : Gbl) (date : ℚ) (s s' : RState)
    (h : aggregationPhase ext g date s = some s') :
    inflowFlowSum s'.trace - inflowFlowSum s.trace =
      latFlowSum s'.nodes - latFlowSum s.nodes := by
  unfold aggregationPhase at h
  simp only [Option.bind_eq_bind, Option.bind_eq_some] at h
  obtain ⟨s1, h1, s2, h2, s3, h3, s4, h4, s5, h5, s6, h6⟩ := h
  simp only [Option.some.injEq] at h6
  obtain ⟨h6a, h6b⟩ := h6
  subst h6b
  have b0 := addExternalInflows_balance ext g date s
  have b1 := addDryWeatherInflows_balance g _ _ h1
  have b2 := addWetWeatherInflows_balance ext _ _ _ h2
  have b3 := addGroundwaterInflows_balance g _ _ _ h3
  have b4 := addLidDrainInflows_balance ext _ _ _ h4
  have b5 := addRdiiInflows_balance ext date _ _ h5
  have b6 := addIfaceInflows_balance ext g date _ _ h6a
  linarith

/-- Witness for C3: a single node with one direct external inflow of `2`
under the sample oracle — the phase completes and the ledger total equals
the lateral-inflow total. -/
theorem C3_witness :
    aggregationPhase extFlow2 gEx 0 sOneInflow = some sOneInflowPost ∧
      inflowFlowSum sOneInflowPost.trace - inflowFlowSum sOneInflow.trace =
        latFlowSum sOneInflowPost.nodes - latFlowSum sOneInflow.nodes := by
  have hEval : aggregationPhase extFlow2 gEx 0 sOneInflow = some sOneInflowPost := by
    norm_num [aggregationPhase, addExternalInflows, addExtAux, extNodeStep, extFlowLookup,
      tolFilter, extQualLoop, addDryWeatherInflows, addDwfAux, dwfNodeStep,
      addWetWeatherInflows, addGroundwaterInflows, addLidDrainInflows, addRdiiInflows,
      addIfaceInflows, extFlow2, extEx, gEx, sOneInflow, sOneInflowPost, stateEx, nodeEx,
      List.find?]
  exact ⟨hEval, C3_aggregation_conserves_flow extFlow2 gEx 0 sOneInflow sOneInflowPost hEval⟩

/-! ## Field/trace preservation lemmas for the scheduler (C2, C10) -/

theorem preEventState_errorCode (ext : Ext) (g : Gbl) (step : ℚ) (s : RState) :
    (preEventState ext g step s).1.errorCode = s.errorCode := by
  unfold preEventState evalControls advanceClocks rollQualState rollLatFlows pushT setLinkTargets
  dsimp only
  repeat' split
  all_goals rfl

theorem preEventState_numEvents (ext : Ext) (g : Gbl) (step : ℚ) (s : RState) :
    (preEventState ext g step s).1.numEvents = s.numEvents := by
  unfold preEventState evalControls advanceClocks rollQualState rollLatFlows pushT setLinkTargets
  dsimp only
  repeat' split
  all_goals rfl

theorem preEventState_swmmEvent (ext : Ext) (g : Gbl) (step : ℚ) (s : RState) :
    (preEventState ext g step s).1.swmmEvent = s.swmmEvent := by
  unfold preEventState evalControls advanceClocks rollQualState rollLatFlows pushT setLinkTargets
  dsimp only
  repeat' split
  all_goals rfl

theorem preEventState_nextEvent (ext : Ext) (g : Gbl) (step : ℚ) (s : RState) :
    (preEventState ext g step s).1.nextEvent = s.nextEvent := by
  unfold preEventState evalControls advanceClocks rollQualState rollLatFlows pushT setLinkTargets
  dsimp only
  repeat' split
  all_goals rfl

theorem preEventState_betweenEvents (ext : Ext) (g : Gbl) (step : ℚ) (s : RState) :
    (preEventState ext g step s).1.betweenEvents = s.betweenEvents := by
  unfold preEventState evalControls advanceClocks rollQualState rollLatFlows pushT setLinkTargets
  dsimp only
  repeat' split
  all_goals rfl

theorem preEventState_oldRoutingTime (ext : Ext) (g : Gbl) (step : ℚ) (s : RState) :
    (preEventState ext g step s).1.oldRoutingTime = s.newRoutingTime := by
  unfold preEventState evalControls advanceClocks rollQualState rollLatFlows pushT setLinkTargets
  dsimp only
  repeat' split
  all_goals rfl

theorem flowroutCount_append (a b : List TraceEv) :
    flowroutCount (a ++ b) = flowroutCount a + flowroutCount b := by
  induction a with
  | nil => simp [flowroutCount]
  | cons e t ih => cases e <;> simp [flowroutCount, ih] <;> omega

theorem preEventState_trace_count (ext : Ext) (g : Gbl) (step : ℚ) (s : RState) :
    flowroutCount (preEventState ext g step s).1.trace = flowroutCount s.trace := by
  unfold preEventState evalControls advanceClocks rollQualState rollLatFlows pushT setLinkTargets
  dsimp only
  repeat' split
  all_goals simp [flowroutCount_append, flowroutCount]

theorem setLinkTargets_len (ext : Ext) (ls : List RLink) :
    (setLinkTargets ext ls).length = ls.length := by
  simp [setLinkTargets]

theorem applyLinkSettings_len (d : ℚ) (ls : List RLink) :
    (applyLinkSettings d ls).1.length = ls.length := by
  induction ls with
  | nil => rfl
  | cons l t ih =>
    simp only [applyLinkSettings]
    split <;> simp [ih]

theorem preEventState_links_len (ext : Ext) (g : Gbl) (step : ℚ) (s : RState)
    (hctrl : ∀ d ls, (ext.controls d ls).length = ls.length) :
    (preEventState ext g step s).1.links.length = s.links.length := by
  unfold preEventState evalControls advanceClocks rollQualState rollLatFlows pushT
  dsimp only
  repeat' split
  all_goals simp [applyLinkSettings_len, hctrl, setLinkTargets_len, List.length_map]

theorem eventBookkeeping_some_pres (d : ℚ) (t t' : RState)
    (h : eventBookkeeping d t = some t') :
    t'.oldRoutingTime = t.oldRoutingTime ∧ t'.trace = t.trace ∧ t'.links = t.links ∧
      t'.numEvents = t.numEvents ∧ t'.swmmEvent = t.swmmEvent ∧
      t'.errorCode = t.errorCode ∧ t'.nodes = t.nodes ∧ t'.pollut = t.pollut ∧
      t'.subcatch = t.subcatch ∧ t'.newRoutingTime = t.newRoutingTime := by
  unfold eventBookkeeping at h
  split at h
  · split at h
    · exact absurd h (by simp)
    · split at h
      · simp only [Option.some.injEq] at h
        subst h
        exact ⟨rfl, rfl, rfl, rfl, rfl, rfl, rfl, rfl, rfl, rfl⟩
      · split at h <;>
          · simp only [Option.some.injEq] at h
            subst h
            exact ⟨rfl, rfl, rfl, rfl, rfl, rfl, rfl, rfl, rfl, rfl⟩
  · simp only [Option.some.injEq] at h
    subst h
    exact ⟨rfl, rfl, rfl, rfl, rfl, rfl, rfl, rfl, rfl, rfl⟩

theorem flowroutCount_qualMap (c : InflowCat) (w : Nat → ℚ) (l : List Nat) :
    flowroutCount (l.map (fun p => TraceEv.inflowQual c p (w p))) = 0 := by
  induction l with
  | nil => rfl
  | cons a t ih => simp [flowroutCount, ih]

theorem flowroutCount_extQualLoop (ext : Ext) (date q : ℚ) (rs : List ExtInflowRec) :
    ∀ qual, flowroutCount (extQualLoop ext date q rs qual).2 = 0 := by
  induction rs with
  | nil => intro qual; rfl
  | cons r rrs ih =>
    intro qual
    simp only [extQualLoop]
    split
    · simp [flowroutCount, ih]
    · exact ih qual

theorem flowroutCount_extNodeStep (ext : Ext) (g : Gbl) (date : ℚ) (n : RNode) :
    flowroutCount (extNodeStep ext g date n).2 = 0 := by
  by_cases hemp : n.extInflow.isEmpty
  · simp [extNodeStep, hemp, flowroutCount]
  · simp [extNodeStep, hemp, flowroutCount, flowroutCount_extQualLoop]

theorem flowroutCount_addExtAux (ext : Ext) (g : Gbl) (date : ℚ) (ns : List RNode) :
    flowroutCount (addExtAux ext g date ns).2 = 0 := by
  induction ns with
  | nil => rfl
  | cons n t ih =>
    simp only [addExtAux]
    rw [flowroutCount_append, flowroutCount_extNodeStep, ih]

theorem flowroutCount_dwfDefaultQualAux (q : ℚ) (prs : List PollutRec) :
    ∀ p qual, flowroutCount (dwfDefaultQualAux q prs p qual).2 = 0 := by
  induction prs with
  | nil => intro p qual; rfl
  | cons pr t ih =>
    intro p qual
    simp only [dwfDefaultQualAux]
    split
    · simp [flowroutCount, ih]
    · exact ih (p + 1) qual

theorem flowroutCount_dwfNodeStep (g : Gbl) (pollut : List PollutRec) (n : RNode)
    (r : RNode × List TraceEv) (h : dwfNodeStep g pollut n = some r) :
    flowroutCount r.2 = 0 := by
  unfold dwfNodeStep at h
  split at h
  · simp only [Option.some.injEq] at h
    subst h
    rfl
  · cases hl : dwfFlowLookup n.dwfInflow with
    | none => rw [hl] at h; exact absurd h (by simp)
    | some q0 =>
      have hq : q0 = 0 := dwfFlowLookup_some_eq_zero _ _ hl
      subst hq
      rw [hl] at h
      simp only [ite_self] at h
      rw [if_pos (le_refl (0 : ℚ))] at h
      simp only [Option.some.injEq] at h
      subst h
      rfl

theorem flowroutCount_addDwfAux (g : Gbl) (pollut : List PollutRec) :
    ∀ (ns : List RNode) (r : List RNode × List TraceEv),
      addDwfAux g pollut ns = some r → flowroutCount r.2 = 0 := by
  intro ns
  induction ns with
  | nil =>
    intro r h
    simp only [addDwfAux, Option.some.injEq] at h
    subst h
    rfl
  | cons n t ih =>
    intro r h
    simp only [addDwfAux, Option.bind_eq_bind, Option.bind_eq_some, Option.some.injEq] at h
    obtain ⟨rn, h1, rest, h2, h3⟩ := h
    subst h3
    simp only [flowroutCount_append, flowroutCount_dwfNodeStep g pollut n rn h1,
      ih rest h2]

theorem flowroutCount_addWetAux (ext : Ext) (f : ℚ) (npoll : Nat) :
    ∀ (l : List (Nat × SubcatchRec)) (nodes : List RNode) (r : List RNode × List TraceEv),
      addWetAux ext f npoll l nodes = some r → flowroutCount r.2 = 0 := by
  intro l
  induction l with
  | nil =>
    intro nodes r h
    simp only [addWetAux, Option.some.injEq] at h
    subst h
    rfl
  | cons isc t ih =>
    intro nodes r h
    obtain ⟨i, sc⟩ := isc
    simp only [addWetAux] at h
    split at h
    · split at h
      · exact absurd h (by simp)
      · simp only [Option.bind_eq_bind, Option.bind_eq_some, Option.some.injEq] at h
        obtain ⟨rr, h1, h2⟩ := h
        subst h2
        simp [flowroutCount_append, flowroutCount, flowroutCount_qualMap, ih _ rr h1]
    · exact ih nodes r h

theorem flowroutCount_addGwAux (g : Gbl) (f : ℚ) (pollut : List PollutRec) :
    ∀ (l : List SubcatchRec) (nodes : List RNode) (r : List RNode × List TraceEv),
      addGwAux g f pollut l nodes = some r → flowroutCount r.2 = 0 := by
  intro l
  induction l with
  | nil =>
    intro nodes r h
    simp only [addGwAux, Option.some.injEq] at h
    subst h
    rfl
  | cons sc t ih =>
    intro nodes r h
    simp only [addGwAux] at h
    rcases hgw : sc.groundwater with _ | gw
    · rw [hgw] at h
      exact ih nodes r h
    · rw [hgw] at h
      simp only [] at h
      split at h
      · split at h
        · exact ih nodes r h
        · split at h
          · exact absurd h (by simp)
          · simp only [Option.bind_eq_bind, Option.bind_eq_some, Option.some.injEq] at h
            obtain ⟨rr, h1, h2⟩ := h
            subst h2
            rw [flowroutCount_append]
            have := ih _ rr h1
            split <;> simp [flowroutCount, flowroutCount_qualMap, this]
      · exact ih nodes r h

theorem flowroutCount_lid (ext : Ext) (i : Nat) (f : ℚ) (nodes : List RNode)
    (r : List RNode × List TraceEv) (h : lid_addDrainInflow ext i f nodes = some r) :
    flowroutCount r.2 = 0 := by
  unfold lid_addDrainInflow at h
  rw [Option.map_eq_some'] at h
  obtain ⟨nodes', h1, h2⟩ := h
  subst h2
  rfl

theorem flowroutCount_addLidAux (ext : Ext) (f : ℚ) :
    ∀ (l : List (Nat × SubcatchRec)) (nodes : List RNode) (r : List RNode × List TraceEv),
      addLidAux ext f l nodes = some r → flowroutCount r.2 = 0 := by
  intro l
  induction l with
  | nil =>
    intro nodes r h
    simp only [addLidAux, Option.some.injEq] at h
    subst h
    rfl
  | cons isc t ih =>
    intro nodes r h
    obtain ⟨i, sc⟩ := isc
    simp only [addLidAux] at h
    split at h
    · simp only [Option.bind_eq_bind, Option.bind_eq_some, Option.some.injEq] at h
      obtain ⟨r1, h1, r2, h2, h3⟩ := h
      subst h3
      rw [flowroutCount_append, flowroutCount_lid ext i f nodes r1 h1, ih r1.1 r2 h2]
    · exact ih nodes r h

theorem flowroutCount_addIfaceAux (ext : Ext) (g : Gbl) (npoll : Nat) :
    ∀ (l : List Nat) (nodes : List RNode) (r : List RNode × List TraceEv),
      addIfaceAux ext g npoll l nodes = some r → flowroutCount r.2 = 0 := by
  intro l
  induction l with
  | nil =>
    intro nodes r h
    simp only [addIfaceAux, Option.some.injEq] at h
    subst h
    rfl
  | cons i t ih =>
    intro nodes r h
    simp only [addIfaceAux] at h
    split at h
    · exact ih nodes r h
    · split at h
      · exact ih nodes r h
      · split at h
        · exact absurd h (by simp)
        · simp only [Option.bind_eq_bind, Option.bind_eq_some, Option.some.injEq] at h
          obtain ⟨rr, h1, h2⟩ := h
          subst h2
          rw [flowroutCount_append]
          have := ih _ rr h1
          split <;> simp [flowroutCount, flowroutCount_qualMap, this]

/-- Each aggregation function preserves the overall configuration, the
previous routing time, and the number of recorded solver invocations. -/
theorem aggregationPhase_pres (ext : Ext) (g : Gbl) (date : ℚ) (s s' : RState)
    (h : aggregationPhase ext g date s = some s') :
    s'.oldRoutingTime = s.oldRoutingTime ∧ s'.links = s.links ∧
      flowroutCount s'.trace = flowroutCount s.trace := by
  unfold aggregationPhase at h
  simp only [Option.bind_eq_bind, Option.bind_eq_some] at h
  obtain ⟨s1, h1, s2, h2, s3, h3, s4, h4, s5, h5, s6, h6⟩ := h
  simp only [Option.some.injEq] at h6
  obtain ⟨h6a, h6b⟩ := h6
  subst h6b
  -- addExternalInflows
  have p0 : (addExternalInflows ext g date s).oldRoutingTime = s.oldRoutingTime ∧
      (addExternalInflows ext g date s).links = s.links ∧
      flowroutCount (addExternalInflows ext g date s).trace = flowroutCount s.trace := by
    refine ⟨rfl, rfl, ?_⟩
    simp only [addExternalInflows]
    rw [flowroutCount_append, flowroutCount_addExtAux]
    omega
  -- addDryWeatherInflows
  have p1 : s1.oldRoutingTime = (addExternalInflows ext g date s).oldRoutingTime ∧
      s1.links = (addExternalInflows ext g date s).links ∧
      flowroutCount s1.trace = flowroutCount (addExternalInflows ext g date s).trace := by
    unfold addDryWeatherInflows at h1
    rw [Option.map_eq_some'] at h1
    obtain ⟨r, hr, hb⟩ := h1
    subst hb
    refine ⟨rfl, rfl, ?_⟩
    simp only []
    rw [flowroutCount_append, flowroutCount_addDwfAux _ _ _ r hr]
    omega
  have p2 : s2.oldRoutingTime = s1.oldRoutingTime ∧ s2.links = s1.links ∧
      flowroutCount s2.trace = flowroutCount s1.trace := by
    unfold addWetWeatherInflows at h2
    split at h2
    · simp only [Option.some.injEq] at h2
      subst h2
      exact ⟨rfl, rfl, rfl⟩
    · rw [Option.map_eq_some'] at h2
      obtain ⟨r, hr, hb⟩ := h2
      subst hb
      refine ⟨rfl, rfl, ?_⟩
      simp only []
      rw [flowroutCount_append, flowroutCount_addWetAux _ _ _ _ _ r hr]
      omega
  have p3 : s3.oldRoutingTime = s2.oldRoutingTime ∧ s3.links = s2.links ∧
      flowroutCount s3.trace = flowroutCount s2.trace := by
    unfold addGroundwaterInflows at h3
    split at h3
    · simp only [Option.some.injEq] at h3
      subst h3
      exact ⟨rfl, rfl, rfl⟩
    · rw [Option.map_eq_some'] at h3
      obtain ⟨r, hr, hb⟩ := h3
      subst hb
      refine ⟨rfl, rfl, ?_⟩
      simp only []
      rw [flowroutCount_append, flowroutCount_addGwAux _ _ _ _ _ r hr]
      omega
  have p4 : s4.oldRoutingTime = s3.oldRoutingTime ∧ s4.links = s3.links ∧
      flowroutCount s4.trace = flowroutCount s3.trace := by
    unfold addLidDrainInflows at h4
    split at h4
    · simp only [Option.some.injEq] at h4
      subst h4
      exact ⟨rfl, rfl, rfl⟩
    · rw [Option.map_eq_some'] at h4
      obtain ⟨r, hr, hb⟩ := h4
      subst hb
      refine ⟨rfl, rfl, ?_⟩
      simp only []
      rw [flowroutCount_append, flowroutCount_addLidAux _ _ _ _ r hr]
      omega
  have p5 : s5.oldRoutingTime = s4.oldRoutingTime ∧ s5.links = s4.links ∧
      flowroutCount s5.trace = flowroutCount s4.trace := by
    unfold addRdiiInflows at h5
    split at h5
    · simp only [Option.some.injEq] at h5
      subst h5
      exact ⟨rfl, rfl, rfl⟩
    · exact absurd h5 (by simp)
  have p6 : s6.oldRoutingTime = s5.oldRoutingTime ∧ s6.links = s5.links ∧
      flowroutCount s6.trace = flowroutCount s5.trace := by
    unfold addIfaceInflows at h6a
    split at h6a
    · simp only [Option.some.injEq] at h6a
      subst h6a
      exact ⟨rfl, rfl, rfl⟩
    · rw [Option.map_eq_some'] at h6a
      obtain ⟨r, hr, hb⟩ := h6a
      subst hb
      refine ⟨rfl, rfl, ?_⟩
      simp only [flowroutCount_addIfaceAux _ _ _ _ _ r hr, flowroutCount_append]
      omega
  refine ⟨?_, ?_, ?_⟩
  · rw [p6.1, p5.1, p4.1, p3.1, p2.1, p1.1, p0.1]
  · rw [p6.2.1, p5.2.1, p4.2.1, p3.2.1, p2.2.1, p1.2.1, p0.2.1]
  · rw [p6.2.2, p5.2.2, p4.2.2, p3.2.2, p2.2.2, p1.2.2, p0.2.2]

theorem executeFinish_fields (ext : Ext) (g : Gbl) (step : ℚ) (c : Nat) (b : Bool)
    (t : RState) :
    (executeFinish ext g step c b t).errorCode = t.errorCode ∧
      (executeFinish ext g step c b t).nextEvent = t.nextEvent ∧
      (executeFinish ext g step c b t).betweenEvents = t.betweenEvents ∧
      (executeFinish ext g step c b t).numEvents = t.numEvents ∧
      (executeFinish ext g step c b t).swmmEvent = t.swmmEvent ∧
      (executeFinish ext g step c b t).links = t.links := by
  unfold executeFinish pushT
  dsimp only
  repeat' split
  all_goals exact ⟨rfl, rfl, rfl, rfl, rfl, rfl⟩

theorem eventBookkeeping_advance (d : ℚ) (t : RState) (ev : TEvent)
    (hnum : 0 < t.numEvents) (hev : t.swmmEvent.get? t.nextEvent = some ev)
    (hpast : d > ev.eend) :
    eventBookkeeping d t = some (advanceEventCursor t) := by
  unfold eventBookkeeping advanceEventCursor
  rw [if_pos hnum, hev]
  dsimp only
  rw [if_pos hpast]

theorem routing_getRoutingStep_oob (ext2 : Ext) (g2 : Gbl) (fs : ℚ) (t : RState)
    (hlinks : t.links.length ≠ 0) (hnum : 0 < t.numEvents) (hbe : t.betweenEvents = true)
    (hoob : t.swmmEvent.length ≤ t.nextEvent) :
    routing_getRoutingStep ext2 g2 fs t = none := by
  unfold routing_getRoutingStep
  rw [if_neg hlinks, if_pos (And.intro hnum hbe), List.get?_eq_none.mpr hoob]

theorem routing_execute_oob (ext2 : Ext) (g2 : Gbl) (step2 : ℚ) (t : RState)
    (herr : t.errorCode = false) (hnum : 0 < t.numEvents)
    (hoob : t.swmmEvent.length ≤ t.nextEvent) :
    routing_execute ext2 g2 step2 t = none := by
  have hbk : eventBookkeeping (ext2.getDateTime t.newRoutingTime)
      (preEventState ext2 g2 step2 t).1 = none := by
    unfold eventBookkeeping
    rw [preEventState_numEvents, preEventState_swmmEvent, preEventState_nextEvent,
      if_pos hnum, List.get?_eq_none.mpr hoob]
  unfold routing_execute
  rw [if_neg (by simp [herr])]
  dsimp only
  rw [hbk]

/-- Claim C10: with events configured, once the step's start date has passed
the last event's end, `routing_execute` completes and leaves
`NextEvent = NumEvents`; from then on every call to `routing_execute` — and,
when links are present, every call to `routing_getRoutingStep` — reads
`swmm_Event[NextEvent]` out of bounds (the `none` branch of the embedded
lookup), because the access is not guarded by `NextEvent < NumEvents`. -/
theorem C10_event_cursor_overrun (ext : Ext) (g : Gbl) (step : ℚ) (s : RState) (ev : TEvent)
    (herr : s.errorCode = false)
    (hnum : 0 < s.numEvents)
    (hlen : s.swmmEvent.length = s.numEvents)
    (hcur : s.nextEvent + 1 = s.numEvents)
    (hev : s.swmmEvent.get? s.nextEvent = some ev)
    (hpast : ext.getDateTime s.newRoutingTime > ev.eend) :
    ∃ s', routing_execute ext g step s = some s' ∧
      s'.nextEvent = s.numEvents ∧ s'.betweenEvents = true ∧
      s'.numEvents = s.numEvents ∧ s'.swmmEvent = s.swmmEvent ∧ s'.errorCode = false ∧
      (∀ (ext2 : Ext) (g2 : Gbl) (step2 : ℚ), routing_execute ext2 g2 step2 s' = none) ∧
      (∀ (ext2 : Ext) (g2 : Gbl) (fs : ℚ), s'.links.length ≠ 0 →
        routing_getRoutingStep ext2 g2 fs s' = none) := by
  have hp1n : (preEventState ext g step s).1.nextEvent = s.nextEvent :=
    preEventState_nextEvent ext g step s
  have hp1e : (preEventState ext g step s).1.numEvents = s.numEvents :=
    preEventState_numEvents ext g step s
  have hp1s : (preEventState ext g step s).1.swmmEvent = s.swmmEvent :=
    preEventState_swmmEvent ext g step s
  have hp1c : (preEventState ext g step s).1.errorCode = s.errorCode :=
    preEventState_errorCode ext g step s
  have hbk : eventBookkeeping (ext.getDateTime s.newRoutingTime)
      (preEventState ext g step s).1 =
      some (advanceEventCursor (preEventState ext g step s).1) := by
    refine eventBookkeeping_advance _ _ ev ?_ ?_ hpast
    · rw [hp1e]
      exact hnum
    · rw [hp1s, hp1n]
      exact hev
  have hrun : routing_execute ext g step s =
      some (executeFinish ext g step 1 true
        (advanceEventCursor (preEventState ext g step s).1)) := by
    unfold routing_execute
    rw [if_neg (by simp [herr])]
    dsimp only
    rw [hbk]
    dsimp only
    rw [if_neg (by simp [advanceEventCursor])]
  obtain ⟨f1, f2, f3, f4, f5, f6⟩ := executeFinish_fields ext g step 1 true
    (advanceEventCursor (preEventState ext g step s).1)
  have hne : (executeFinish ext g step 1 true
      (advanceEventCursor (preEventState ext g step s).1)).nextEvent = s.numEvents := by
    rw [f2]
    show (preEventState ext g step s).1.nextEvent + 1 = s.numEvents
    rw [hp1n]
    exact hcur
  have hbe : (executeFinish ext g step 1 true
      (advanceEventCursor (preEventState ext g step s).1)).betweenEvents = true := by
    rw [f3]
    rfl
  have hnum' : (executeFinish ext g step 1 true
      (advanceEventCursor (preEventState ext g step s).1)).numEvents = s.numEvents := by
    rw [f4]
    show (preEventState ext g step s).1.numEvents = s.numEvents
    exact hp1e
  have hsw : (executeFinish ext g step 1 true
      (advanceEventCursor (preEventState ext g step s).1)).swmmEvent = s.swmmEvent := by
    rw [f5]
    show (preEventState ext g step s).1.swmmEvent = s.swmmEvent
    exact hp1s
  have herr' : (executeFinish ext g step 1 true
      (advanceEventCursor (preEventState ext g step s).1)).errorCode = false := by
    rw [f1]
    show (preEventState ext g step s).1.errorCode = false
    rw [hp1c]
    exact herr
  have hoob : (executeFinish ext g step 1 true
      (advanceEventCursor (preEventState ext g step s).1)).swmmEvent.length ≤
      (executeFinish ext g step 1 true
        (advanceEventCursor (preEventState ext g step s).1)).nextEvent := by
    rw [hsw, hne, hlen]
  refine ⟨_, hrun, hne, hbe, hnum', hsw, herr', ?_, ?_⟩
  · intro ext2 g2 step2
    exact routing_execute_oob ext2 g2 step2 _ herr' (by rw [hnum']; exact hnum) hoob
  · intro ext2 g2 fs hl
    exact routing_getRoutingStep_oob ext2 g2 fs _ hl (by rw [hnum']; exact hnum) hbe hoob

/-- Witness for C10: a single event `[0, 10)` with the clock at date `20` —
the executing step completes with `NextEvent = NumEvents = 1`, and every
subsequent `routing_execute` call faults on the event lookup. -/
theorem C10_witness :
    ∃ s', routing_execute extEx gEx 5 sPastEvents = some s' ∧
      s'.nextEvent = sPastEvents.numEvents ∧ s'.betweenEvents = true ∧
      s'.numEvents = sPastEvents.numEvents ∧ s'.swmmEvent = sPastEvents.swmmEvent ∧
      s'.errorCode = false ∧
      (∀ (ext2 : Ext) (g2 : Gbl) (step2 : ℚ), routing_execute ext2 g2 step2 s' = none) ∧
      (∀ (ext2 : Ext) (g2 : Gbl) (fs : ℚ), s'.links.length ≠ 0 →
        routing_getRoutingStep ext2 g2 fs s' = none) :=
  C10_event_cursor_overrun extEx gEx 5 sPastEvents ⟨0, 10⟩ (by rfl)
    (by norm_num [sPastEvents, stateEx]) (by rfl) (by rfl) (by rfl)
    (by norm_num [extEx, sPastEvents, stateEx])

/-! ## Trace lemmas for the steady-state tail (C2) -/

theorem flowroutCount_outQualMap (f : Nat → ℚ) (fl : Option Bool) (l : List Nat) :
    flowroutCount (l.map (fun k => TraceEv.outflowQual k (f k) fl)) = 0 := by
  induction l with
  | nil => rfl
  | cons a t ih => simp [flowroutCount, ih]

theorem flowroutCount_outflowEvents (ext : Ext) (i : Nat) (n : RNode) (npoll : Nat) :
    flowroutCount (outflowEvents ext i n npoll) = 0 := by
  simp only [outflowEvents]
  by_cases h1 : ext.sysOutflow i > 0 <;> by_cases h2 : n.newLatFlow < 0 <;>
    simp [h1, h2, flowroutCount_append, flowroutCount, flowroutCount_outQualMap]

theorem flowroutCount_removeOutAux (ext : Ext) (tStep : ℚ) (npoll : Nat) :
    ∀ (l : List (Nat × RNode)) (outfall : List OutfallRec)
      (r : List OutfallRec × List TraceEv),
      removeOutAux ext tStep npoll l outfall = some r → flowroutCount r.2 = 0 := by
  intro l
  induction l with
  | nil =>
    intro outfall r h
    simp only [removeOutAux, Option.some.injEq] at h
    subst h
    rfl
  | cons inn t ih =>
    intro outfall r h
    obtain ⟨i, n⟩ := inn
    simp only [removeOutAux, Option.bind_eq_bind, Option.bind_eq_some,
      Option.some.injEq] at h
    obtain ⟨o', h1, rr, h2, h3⟩ := h
    subst h3
    rw [flowroutCount_append, flowroutCount_outflowEvents, ih o' rr h2]

theorem removeOutflows_count (ext : Ext) (tStep : ℚ) (t t' : RState)
    (h : removeOutflows ext tStep t = some t') :
    flowroutCount t'.trace = flowroutCount t.trace := by
  unfold removeOutflows at h
  rw [Option.map_eq_some'] at h
  obtain ⟨r, hr, hb⟩ := h
  subst hb
  simp only [flowroutCount_append, flowroutCount_removeOutAux _ _ _ _ _ r hr]
  omega

theorem removeStorageLosses_count (tStep : ℚ) (t t' : RState)
    (h : removeStorageLosses tStep t = some t') :
    flowroutCount t'.trace = flowroutCount t.trace := by
  unfold removeStorageLosses at h
  rw [Option.map_eq_some'] at h
  obtain ⟨r, hr, hb⟩ := h
  subst hb
  simp [pushT, flowroutCount_append, flowroutCount]

theorem removeConduitLosses_count (t t' : RState)
    (h : removeConduitLosses t = some t') :
    flowroutCount t'.trace = flowroutCount t.trace := by
  unfold removeConduitLosses at h
  rw [Option.map_eq_some'] at h
  obtain ⟨r, hr, hb⟩ := h
  subst hb
  simp [pushT, flowroutCount_append, flowroutCount]

theorem qualroutPhase_count (ext : Ext) (g : Gbl) (step : ℚ) (t : RState) :
    flowroutCount (qualroutPhase ext g step t).trace = flowroutCount t.trace := by
  unfold qualroutPhase
  split <;> simp [flowroutCount_append, flowroutCount]

theorem executeFinish_count (ext : Ext) (g : Gbl) (step : ℚ) (c : Nat) (b : Bool)
    (t : RState) :
    flowroutCount (executeFinish ext g step c b t).trace = flowroutCount t.trace := by
  unfold executeFinish pushT
  dsimp only
  repeat' split
  all_goals simp [flowroutCount_append, flowroutCount]

/-- In a steady step the tail phases add no `flowrout_execute` invocation. -/
theorem postSteadyPhases_count_steady (ext : Ext) (g : Gbl) (step : ℚ) (act : Nat)
    (sA s' : RState)
    (hflag : (g.skipSteadyState && steadyCond ext g act sA) = true)
    (h : postSteadyPhases ext g step act sA = some s') :
    flowroutCount s'.trace = flowroutCount sA.trace := by
  unfold postSteadyPhases at h
  rw [hflag] at h
  simp only [eq_self_iff_true, if_true] at h
  rcases h1 : removeStorageLosses step (qualroutPhase ext g step sA) with _ | t1
  · rw [h1] at h
    exact absurd h (by simp)
  · rw [h1] at h
    dsimp only at h
    rcases h2 : removeConduitLosses t1 with _ | t2
    · rw [h2] at h
      exact absurd h (by simp)
    · rw [h2] at h
      dsimp only at h
      rw [Option.map_eq_some'] at h
      obtain ⟨t3, h3, hb⟩ := h
      subst hb
      rw [executeFinish_count, removeOutflows_count ext step t2 t3 h3,
        removeConduitLosses_count t1 t2 h2, removeStorageLosses_count step _ t1 h1,
        qualroutPhase_count]

theorem routing_execute_via_preSteady (ext : Ext) (g : Gbl) (step : ℚ) (s sA : RState)
    (herr : s.errorCode = false) (hps : preSteadyState ext g step s = some sA) :
    routing_execute ext g step s =
      postSteadyPhases ext g step (preEventState ext g step s).2 sA := by
  unfold preSteadyState at hps
  rcases hbk : eventBookkeeping (ext.getDateTime s.newRoutingTime)
      (preEventState ext g step s).1 with _ | s₂
  · rw [hbk] at hps
    exact absurd hps (by simp)
  · rw [hbk] at hps
    dsimp only at hps
    by_cases hbf : s₂.betweenEvents = false
    · rw [if_pos hbf] at hps
      unfold routing_execute
      rw [if_neg (by simp [herr])]
      dsimp only
      rw [hbk]
      dsimp only
      rw [if_pos hbf, hps]
    · rw [if_neg hbf] at hps
      exact absurd hps (by simp)

/-- Claim C2: with `SkipSteadyState` enabled and the step not skipped as
between-events (the bookkeeping/aggregation pipeline `preSteadyState`
completed with state `sA`), `routing_execute` treats the step as steady
state iff none of these hold: the pre-step elapsed routing time is zero
(first step), at least one link-setting action occurred (`actionCount =
(preEventState …).2 > 0`), the sampled previous-step flow-balance error
exceeds `SysFlowTol`, or `inflowHasChanged`; and when the step is steady the
flow-routing solver is not invoked (the trace gains no `flowrout` call). -/
theorem C2_steady_state_iff (ext : Ext) (g : Gbl) (step : ℚ) (s sA s' : RState)
    (herr : s.errorCode = false)
    (hskip : g.skipSteadyState = true)
    (hps : preSteadyState ext g step s = some sA)
    (hrun : routing_execute ext g step s = some s') :
    ((g.skipSteadyState && steadyCond ext g (preEventState ext g step s).2 sA) = true ↔
      ¬(s.newRoutingTime = 0 ∨ 0 < (preEventState ext g step s).2 ∨
        |ext.stepFlowError| > g.sysFlowTol ∨ inflowHasChanged g sA.nodes = true)) ∧
    ((g.skipSteadyState && steadyCond ext g (preEventState ext g step s).2 sA) = true →
      flowroutCount s'.trace = flowroutCount s.trace) := by
  -- unpack the bookkeeping/aggregation pipeline
  unfold preSteadyState at hps
  rcases hbk : eventBookkeeping (ext.getDateTime s.newRoutingTime)
      (preEventState ext g step s).1 with _ | s₂
  · rw [hbk] at hps
    exact absurd hps (by simp)
  · rw [hbk] at hps
    dsimp only at hps
    by_cases hbf : s₂.betweenEvents = false
    · rw [if_pos hbf] at hps
      -- previous routing time carried into sA
      have hpres := aggregationPhase_pres ext g
        (ext.getDateTime s.newRoutingTime) (computeNodeLosses ext step s₂) sA hps
      have hcl : (computeNodeLosses ext step s₂).oldRoutingTime = s₂.oldRoutingTime := rfl
      have hclt : (computeNodeLosses ext step s₂).trace = s₂.trace := rfl
      have hbkp := eventBookkeeping_some_pres _ _ _ hbk
      have hOld : sA.oldRoutingTime = s.newRoutingTime := by
        rw [hpres.1, hcl, hbkp.1, preEventState_oldRoutingTime]
      constructor
      · rw [hskip, Bool.true_and]
        unfold steadyCond
        rw [hOld]
        simp [not_or]
        tauto
      · intro hflag
        have hpost : postSteadyPhases ext g step (preEventState ext g step s).2 sA =
            some s' := by
          unfold routing_execute at hrun
          rw [if_neg (by simp [herr])] at hrun
          dsimp only at hrun
          rw [hbk] at hrun
          dsimp only at hrun
          rw [if_pos hbf, hps] at hrun
          exact hrun
        rw [postSteadyPhases_count_steady ext g step _ sA s' hflag hpost]
        rw [hpres.2.2, hclt, hbkp.2.1, preEventState_trace_count]
    · rw [if_neg hbf] at hps
      exact absurd hps (by simp)

set_option maxHeartbeats 1000000 in
/-- Witness for C2: the spec's scenario — a single node with a constant
direct external inflow of `2`, on a non-first step (clock `40000` ms), no
control actions and zero sampled flow error — the step is treated as steady
state and no `flowrout` invocation is recorded. -/
theorem C2_witness :
    gEx.skipSteadyState = true ∧
      preSteadyState extFlow2 gEx 30 sSteady = some sSteadyAgg ∧
      routing_execute extFlow2 gEx 30 sSteady = some sSteadyPost ∧
      (gEx.skipSteadyState &&
        steadyCond extFlow2 gEx (preEventState extFlow2 gEx 30 sSteady).2 sSteadyAgg)
        = true ∧
      flowroutCount sSteadyPost.trace = flowroutCount sSteady.trace := by
  have e1 : preEventState extFlow2 gEx 30 sSteady = (sSteadyPre, 0) := by
    norm_num [preEventState, pushT, setLinkTargets, evalControls, applyLinkSettings,
      advanceClocks, rollQualState, rollLatFlows, extFlow2, extEx, gEx, sSteady,
      sSteadyPre, stateEx, nodeEx, nodeSteady]
  have e2 : eventBookkeeping (extFlow2.getDateTime sSteady.newRoutingTime) sSteadyPre =
      some sSteadyPre := by
    norm_num [eventBookkeeping, sSteadyPre, stateEx]
  have e3 : computeNodeLosses extFlow2 30 sSteadyPre = sSteadyPre := by
    norm_num [computeNodeLosses, extFlow2, extEx, sSteadyPre, stateEx, nodeEx, List.enum]
  have e4 : aggregationPhase extFlow2 gEx (extFlow2.getDateTime sSteady.newRoutingTime)
      sSteadyPre = some sSteadyAgg := by
    norm_num [aggregationPhase, addExternalInflows, addExtAux, extNodeStep,
      extFlowLookup, tolFilter, extQualLoop, addDryWeatherInflows, addDwfAux,
      dwfNodeStep, addWetWeatherInflows, addGroundwaterInflows, addLidDrainInflows,
      addRdiiInflows, addIfaceInflows, extFlow2, extEx, gEx, sSteady, sSteadyPre,
      sSteadyAgg, stateEx, nodeEx, List.find?]
  have hps : preSteadyState extFlow2 gEx 30 sSteady = some sSteadyAgg := by
    unfold preSteadyState
    rw [e1]
    dsimp only
    rw [e2]
    dsimp only
    rw [if_pos (by rfl : sSteadyPre.betweenEvents = false), e3, e4]
  have hsc : steadyCond extFlow2 gEx 0 sSteadyAgg = true := by
    norm_num [steadyCond, inflowHasChanged, nodeTriggers, relDiff, extFlow2, extEx,
      gEx, sSteadyAgg, stateEx, nodeEx]
  have hflag : (gEx.skipSteadyState &&
      steadyCond extFlow2 gEx (preEventState extFlow2 gEx 30 sSteady).2 sSteadyAgg)
      = true := by
    rw [e1]
    dsimp only
    rw [hsc]
    rfl
  have r1 : qualroutPhase extFlow2 gEx 30 sSteadyAgg = sSteadyAgg := by
    norm_num [qualroutPhase, sSteadyAgg, stateEx]
  have r2 : removeStorageLosses 30 sSteadyAgg =
      some { sSteadyAgg with trace := sSteadyAgg.trace ++ [.nodeLosses 0 0] } := by
    have hns : NodeType.junction ≠ NodeType.storage := by decide
    norm_num [removeStorageLosses, storageSums, pushT, sSteadyAgg, stateEx, nodeEx, hns]
  have r3 : removeConduitLosses
      { sSteadyAgg with trace := sSteadyAgg.trace ++ [.nodeLosses 0 0] } =
      some { sSteadyAgg with
        trace := sSteadyAgg.trace ++ [.nodeLosses 0 0] ++ [.linkLosses 0 0] } := by
    norm_num [removeConduitLosses, conduitSums, pushT, sSteadyAgg, stateEx]
  have r4 : removeOutflows extFlow2 30
      { sSteadyAgg with
        trace := sSteadyAgg.trace ++ [.nodeLosses 0 0] ++ [.linkLosses 0 0] } =
      some { sSteadyAgg with
        trace := sSteadyAgg.trace ++ [.nodeLosses 0 0] ++ [.linkLosses 0 0]
          ++ [.inflowFlow .external 0] } := by
    norm_num [removeOutflows, removeOutAux, outfallAccum, outflowEvents, extFlow2,
      extEx, sSteadyAgg, stateEx, nodeEx, List.enum]
  have hin : (gEx.skipSteadyState && steadyCond extFlow2 gEx 0 sSteadyAgg) = true := by
    rw [hsc]
    rfl
  have hrun : routing_execute extFlow2 gEx 30 sSteady = some sSteadyPost := by
    rw [routing_execute_via_preSteady extFlow2 gEx 30 sSteady sSteadyAgg (by rfl) hps,
      e1]
    dsimp only
    unfold postSteadyPhases
    dsimp only
    dsimp only at r2 r3 r4
    rw [hin, if_pos rfl]
    dsimp only
    rw [r1, r2]
    dsimp only
    rw [r3]
    dsimp only
    rw [r4]
    norm_num [executeFinish, pushT, sSteadyAgg, sSteadyPost, stateEx]
  exact ⟨rfl, hps, hrun, hflag,
    (C2_steady_state_iff extFlow2 gEx 30 sSteady sSteadyAgg sSteadyPost (by rfl) rfl
      hps hrun).2 hflag⟩

end SwmmRouting
